import Mathlib

/-!  Formal model of meshpy's stable-pose STP file codec
(src/meshpy/stp_file.py, class StablePoseFile).

Modelling conventions for the shallow embedding:
* Python floats are modelled by ℚ.  Python's float("...") is modelled as
  exact rational parsing (parseQ) over the full finite ASCII literal
  grammar (sign, underscore-grouped digits, fraction, exponent); the
  special spellings inf/infinity/nan have no rational value and are
  tracked by isInfNanTok.  The "%f" fixed-point formatting is modelled as
  rounding to 6 decimal digits (fmt6 / fround6).
* A text file is modelled as the list of its newline-terminated lines,
  without the trailing newline characters.  line.split() is pySplit.
* Exceptions become Except values: ValueError from the constructor,
  and IndexError / ValueError / NameError inside read (the spec calls
  the structural ones MalformedRecord and the constructor's one
  InvalidExtension).
-/

namespace Stp

/-- Whitespace recognised by Python's str.split() with no arguments. -/
def isWsChar (c : Char) : Bool := c = ' ' || c = '\t' || c = '\n' || c = '\r'

/-- Helper for splitWs; acc is the current token, reversed. -/
def splitWsAux : List Char → List Char → List (List Char)
  | [], acc => if acc.isEmpty then [] else [acc.reverse]
  | c :: cs, acc =>
    if isWsChar c then
      if acc.isEmpty then splitWsAux cs [] else acc.reverse :: splitWsAux cs []
    else splitWsAux cs (c :: acc)

/-- Python str.split() on characters: split on whitespace runs, dropping empties. -/
def splitWs (l : List Char) : List (List Char) := splitWsAux l []

/-- line.split() on a string. -/
def pySplit (s : String) : List String := (splitWs s.data).map String.mk

/-- Character of one decimal digit. -/
def digitChar : Nat → Char
  | 0 => '0'
  | 1 => '1'
  | 2 => '2'
  | 3 => '3'
  | 4 => '4'
  | 5 => '5'
  | 6 => '6'
  | 7 => '7'
  | 8 => '8'
  | _ => '9'

/-- Fuel-driven decimal rendering of a natural number (fuel ≥ n suffices). -/
def natDigitsGo : Nat → Nat → List Char
  | 0, m => [digitChar (m % 10)]
  | fuel + 1, m =>
    if m < 10 then [digitChar m] else natDigitsGo fuel (m / 10) ++ [digitChar (m % 10)]

/-- Decimal digit characters of a natural number, most significant first
(Python "%d" and str() on a natural number). -/
def natDigits (n : Nat) : List Char := natDigitsGo n n

/-- Numeric value of a list of decimal digit characters. -/
def natFromDigits (l : List Char) : Nat := l.foldl (fun a c => 10 * a + (c.toNat - 48)) 0

/-- Greedy scan of one Python digit part: a run of decimal digits in which a
single underscore may stand between two digits.  Returns the value, the
number of digits consumed, and the unconsumed rest. -/
def digitPartAux : List Char → Nat → Nat → Nat × Nat × List Char
  | [], v, k => (v, k, [])
  | c :: r, v, k =>
    if c.isDigit then digitPartAux r (10 * v + (c.toNat - 48)) (k + 1)
    else if c = '_' ∧ 0 < k ∧ r.head?.any Char.isDigit then digitPartAux r v k
    else (v, k, c :: r)

/-- Exponent suffix of a float literal: an optional sign and a digit part
that must consume the whole rest, scaling the mantissa by a power of ten. -/
def parseExpPart (mant : ℚ) (l : List Char) : Option ℚ :=
  let ps : ℤ × List Char :=
    match l with
    | '+' :: r => (1, r)
    | '-' :: r => (-1, r)
    | r => (1, r)
  let t := digitPartAux ps.2 0 0
  if t.2.1 = 0 ∨ t.2.2 ≠ [] then none
  else some (mant * (10 : ℚ) ^ (ps.1 * (t.1 : ℤ)))

/-- Unsigned part of Python's float() grammar over ASCII decimals: an integer
digit part, an optional dot with a fraction digit part (at least one digit
between the two), and an optional e/E exponent; underscores group digits as
in Python.  The value is the exact rational the literal denotes. -/
def parsePosChars (l : List Char) : Option ℚ :=
  let t := digitPartAux l 0 0
  match t.2.2 with
  | [] => if t.2.1 = 0 then none else some (t.1 : ℚ)
  | '.' :: fr =>
    let u := digitPartAux fr 0 0
    if t.2.1 = 0 ∧ u.2.1 = 0 then none
    else
      match u.2.2 with
      | [] => some ((t.1 : ℚ) + (u.1 : ℚ) / (10 : ℚ) ^ u.2.1)
      | c :: ex =>
        if c = 'e' ∨ c = 'E' then
          parseExpPart ((t.1 : ℚ) + (u.1 : ℚ) / (10 : ℚ) ^ u.2.1) ex
        else none
  | c :: ex =>
    if (c = 'e' ∨ c = 'E') ∧ ¬t.2.1 = 0 then parseExpPart (t.1 : ℚ) ex else none

/-- Python float(token) on a signed literal, as an exact rational.  This
covers every finite value float() accepts on whitespace-free ASCII tokens
(sign, digits with underscore grouping, fraction, exponent); the special
spellings inf/infinity/nan have no rational value and are tracked separately
by isInfNanTok. -/
def parseQChars : List Char → Option ℚ
  | [] => none
  | c :: r =>
    if c = '-' then (parsePosChars r).map (fun q => -q)
    else if c = '+' then parsePosChars r
    else parsePosChars (c :: r)

/-- float() on a token string, for finite values. -/
def parseQ (s : String) : Option ℚ := parseQChars s.data

/-- Tokens float() accepts as the special values inf, -inf or nan: an optional
sign and a case-insensitive spelling inf, infinity or nan.  These lie outside
the rational embedding of floats. -/
def isInfNanTok (s : String) : Bool :=
  let l := s.data.map Char.toLower
  let core := match l with
    | '+' :: r => r
    | '-' :: r => r
    | r => r
  core == ['i', 'n', 'f'] || core == ['i', 'n', 'f', 'i', 'n', 'i', 't', 'y'] ||
    core == ['n', 'a', 'n']

/-- Tokens on which Python's float() raises ValueError: neither a finite
literal nor an inf/nan spelling. -/
def pyFloatFails (s : String) : Bool := (parseQ s).isNone && !(isInfNanTok s)

/-- Value represented by the 6-decimal fixed-point formatting of q. -/
def fround6 (q : ℚ) : ℚ := (round (q * 1000000) : ℤ) / 1000000

/-- Characters written by "%f" for q: optional sign, integer part, a dot,
then exactly 6 fraction digits. -/
def fmt6Chars (q : ℚ) : List Char :=
  let n : ℤ := round (q * 1000000)
  let fr := natDigits (n.natAbs % 1000000)
  (if n < 0 then ['-'] else []) ++ natDigits (n.natAbs / 1000000) ++
    '.' :: (List.replicate (6 - fr.length) '0' ++ fr)

/-- "%f" formatting of q as a string. -/
def fmt6 (q : ℚ) : String := String.mk (fmt6Chars q)

/-- Modelled from the spec: a 3-vector of floats (the translation, and one
rotation-matrix row). -/
structure Vec3 where
  a0 : ℚ
  a1 : ℚ
  a2 : ℚ
deriving DecidableEq, Repr

/-- Modelled from the spec: a 3x3 rotation matrix, row major. -/
structure Mat3 where
  row0 : Vec3
  row1 : Vec3
  row2 : Vec3
deriving DecidableEq, Repr

/-- Modelled from the spec: the StablePose record of stable_pose.py (that file
is not under src/): probability, rotation, translation, identifier.  The
identifier is kept as the token string written after the id tag. -/
structure StablePose where
  p : ℚ
  r : Mat3
  x0 : Vec3
  stp_id : String
deriving DecidableEq, Repr

/-- Componentwise 6-decimal rounding of a vector. -/
def roundVec3 (v : Vec3) : Vec3 := ⟨fround6 v.a0, fround6 v.a1, fround6 v.a2⟩

/-- Componentwise 6-decimal rounding of a matrix. -/
def roundMat3 (m : Mat3) : Mat3 := ⟨roundVec3 m.row0, roundVec3 m.row1, roundVec3 m.row2⟩

/-- A record as it comes back after write-then-read: every float field rounded
at the 6-decimal formatting precision, the identifier kept verbatim. -/
def roundPose (s : StablePose) : StablePose :=
  ⟨fround6 s.p, roundMat3 s.r, roundVec3 s.x0, s.stp_id⟩

/-- Python exceptions that the read loop can raise. -/
inductive PyError
  | indexErr
  | valueErr
  | nameErr
deriving DecidableEq, Repr

/-- Equality of Except results is decidable, so concrete runs of the codec
can be checked by evaluation. -/
instance {ε α : Type} [DecidableEq ε] [DecidableEq α] : DecidableEq (Except ε α) := fun
  | .error e, .error e' =>
    if h : e = e' then .isTrue (by rw [h]) else .isFalse (by intro hh; cases hh; exact h rfl)
  | .error _, .ok _ => .isFalse (by intro hh; cases hh)
  | .ok _, .error _ => .isFalse (by intro hh; cases hh)
  | .ok a, .ok b =>
    if h : a = b then .isTrue (by rw [h]) else .isFalse (by intro hh; cases hh; exact h rfl)

/-- Index of the last occurrence of c in l, if any (Python rfind). -/
def rfindIdx : List Char → Char → Option Nat
  | [], _ => none
  | x :: xs, c =>
    match rfindIdx xs c with
    | some i => some (i + 1)
    | none => if x = c then some 0 else none

/-- Extension of a path per os.path.splitext on posix: the part from the last
dot onwards, provided that dot lies after the last slash and the basename up
to it is not all dots; otherwise empty. -/
def splitextExtChars (l : List Char) : List Char :=
  match rfindIdx l '.' with
  | none => []
  | some d =>
    match
      (match rfindIdx l '/' with
       | none => some 0
       | some s => if s < d then some (s + 1) else none) with
    | none => []
    | some b => if ((l.drop b).take (d - b)).any (fun c => c ≠ '.') then l.drop d else []

/-- The codec object: just the stored filepath (attribute filepath_). -/
structure StablePoseFile where
  filepath_ : String
deriving DecidableEq, Repr

/-- Constructor of StablePoseFile: splits the extension off the path and
raises ValueError (the spec's InvalidExtension) unless it is the literal
".stp".  Purely a string computation: no filesystem access. -/
def mkStablePoseFile (filepath : String) : Except String StablePoseFile :=
  if String.mk (splitextExtChars filepath.data) ≠ ".stp" then
    Except.error "Extension invalid for STPs"
  else Except.ok ⟨filepath⟩

/-- Python s[:-4]. -/
def dropLast4 (s : String) : String := String.mk (s.data.take (s.data.length - 4))

/-- The path write opens: self.filepath_[:-4] + ".stp". -/
def writeTarget (f : StablePoseFile) : String := dropLast4 f.filepath_ ++ ".stp"

/-- Characters of n spaces. -/
def spacesChars (n : Nat) : List Char := List.replicate n ' '

/-- Fuel-driven multiplicity of the factor p in n. -/
def countFactorGo : Nat → Nat → Nat → Nat
  | 0, _, _ => 0
  | fuel + 1, n, p =>
    if 1 < p ∧ 1 < n ∧ n % p = 0 then countFactorGo fuel (n / p) p + 1 else 0

/-- Multiplicity of the factor p in n. -/
def countFactor (n p : Nat) : Nat := countFactorGo n n p

/-- Python str() of the min_prob number: integers render without a decimal
point, terminating decimals render with their shortest fraction part.  Only
its length matters to the banner layout. -/
def pyStr (q : ℚ) : String :=
  let sign : List Char := if q < 0 then ['-'] else []
  if q.den = 1 then String.mk (sign ++ natDigits q.num.natAbs)
  else
    let k := max (countFactor q.den 2) (countFactor q.den 5)
    let m := q.num.natAbs * 10 ^ k / q.den
    let fr := natDigits (m % 10 ^ k)
    String.mk (sign ++ natDigits (m / 10 ^ k) ++
      '.' :: (List.replicate (k - fr.length) '0' ++ fr))

/-- The banner block write emits, as file lines: border, attribution, blank
comment, "Num Poses" padded with 46 - len(str(N)) spaces before " #",
"Min Probability" padded with 40 - len(str(min_prob)) spaces before " #",
blank comment, border, then one empty line. -/
def bannerLines (n : Nat) (minProbStr : String) : List String :=
  [ "#############################################################",
    "# STP file generated by UC Berkeley Automation Sciences Lab #",
    "#                                                           #",
    String.mk ("# Num Poses: ".data ++ natDigits n ++
      spacesChars (46 - (natDigits n).length) ++ " #".data),
    String.mk ("# Min Probability: ".data ++ minProbStr.data ++
      spacesChars (40 - minProbStr.data.length) ++ " #".data),
    "#                                                           #",
    "#############################################################",
    "" ]

/-- The six lines write emits for one retained pose: "p %f", "r %f %f %f",
two tag-less "  %f %f %f" rows, "x0 %f %f %f", "id %s". -/
def poseLines (s : StablePose) : List String :=
  [ String.mk ('p' :: ' ' :: fmt6Chars s.p),
    String.mk ('r' :: ' ' :: (fmt6Chars s.r.row0.a0 ++ ' ' ::
      (fmt6Chars s.r.row0.a1 ++ ' ' :: fmt6Chars s.r.row0.a2))),
    String.mk (' ' :: ' ' :: (fmt6Chars s.r.row1.a0 ++ ' ' ::
      (fmt6Chars s.r.row1.a1 ++ ' ' :: fmt6Chars s.r.row1.a2))),
    String.mk (' ' :: ' ' :: (fmt6Chars s.r.row2.a0 ++ ' ' ::
      (fmt6Chars s.r.row2.a1 ++ ' ' :: fmt6Chars s.r.row2.a2))),
    String.mk ('x' :: '0' :: ' ' :: (fmt6Chars s.x0.a0 ++ ' ' ::
      (fmt6Chars s.x0.a1 ++ ' ' :: fmt6Chars s.x0.a2))),
    String.mk ('i' :: 'd' :: ' ' :: s.stp_id.data) ]

/-- write(stable_poses, min_prob): keep the poses with p >= min_prob in input
order, then emit the banner, six lines per retained pose, and two trailing
empty lines.  The result is the written file as a list of lines. -/
def write (stable_poses : List StablePose) (min_prob : ℚ) : List String :=
  let R_list := stable_poses.filter (fun pose => min_prob ≤ pose.p)
  bannerLines R_list.length (pyStr min_prob) ++ R_list.flatMap poseLines ++ ["", ""]

/-- data[k][j] of the tokenized lines from the current scan position;
IndexError when either index is out of range. -/
def tokAt (cur : List (List String)) (k j : Nat) : Except PyError String :=
  match cur.get? k with
  | none => Except.error PyError.indexErr
  | some line =>
    match line.get? j with
    | none => Except.error PyError.indexErr
    | some s => Except.ok s

/-- float(s) in read: ValueError when the token is not a finite numeric
literal.  The inf/nan spellings, which float() accepts but ℚ cannot carry,
are outside this model of read; theorems about parse failure therefore use
pyFloatFails, which excludes them. -/
def toFloat (s : String) : Except PyError ℚ :=
  match parseQ s with
  | none => Except.error PyError.valueErr
  | some q => Except.ok q

/-- Value of the identifier loop variable after the try/except at the id
line: data[i+5][1] when that lookup succeeds, otherwise unchanged from the
previous iteration (the except branch assigns only the unused stp_id). -/
def nextIdent (cur : List (List String)) (ident : Option String) : Option String :=
  match cur.get? 5 with
  | none => ident
  | some l5 =>
    match l5.get? 1 with
    | none => ident
    | some s => some s

/-- One record block at a p line, in source order: p from line i token 1;
rotation row 0 from line i+1 tokens 1..3, rows 1 and 2 from lines i+2 and
i+3 tokens 0..2; conversion of the nine entries; translation from line i+4
tokens 1..3.  The record's identifier is the loop variable after the
try/except: NameError when it was never assigned. -/
def parseBlock (cur : List (List String)) (ident : Option String) :
    Except PyError StablePose := do
  let ps ← tokAt cur 0 1
  let p ← toFloat ps
  let s00 ← tokAt cur 1 1
  let s01 ← tokAt cur 1 2
  let s02 ← tokAt cur 1 3
  let s10 ← tokAt cur 2 0
  let s11 ← tokAt cur 2 1
  let s12 ← tokAt cur 2 2
  let s20 ← tokAt cur 3 0
  let s21 ← tokAt cur 3 1
  let s22 ← tokAt cur 3 2
  let r00 ← toFloat s00
  let r01 ← toFloat s01
  let r02 ← toFloat s02
  let r10 ← toFloat s10
  let r11 ← toFloat s11
  let r12 ← toFloat s12
  let r20 ← toFloat s20
  let r21 ← toFloat s21
  let r22 ← toFloat s22
  let sx0 ← tokAt cur 4 1
  let sx1 ← tokAt cur 4 2
  let sx2 ← tokAt cur 4 3
  let t0 ← toFloat sx0
  let t1 ← toFloat sx1
  let t2 ← toFloat sx2
  match nextIdent cur ident with
  | none => Except.error PyError.nameErr
  | some idv =>
    Except.ok ⟨p, ⟨⟨r00, r01, r02⟩, ⟨r10, r11, r12⟩, ⟨r20, r21, r22⟩⟩, ⟨t0, t1, t2⟩, idv⟩

/-- The scan loop of read over the tokenized lines, carrying the identifier
loop variable across iterations.  Every line is scanned; a line whose first
token is "p" contributes one record (or aborts the read with an error). -/
def readAux : List (List String) → Option String → Except PyError (List StablePose)
  | [], _ => Except.ok []
  | line :: rest, ident =>
    if line.head? = some "p" then do
      let pose ← parseBlock (line :: rest) ident
      let tail ← readAux rest (nextIdent (line :: rest) ident)
      Except.ok (pose :: tail)
    else readAux rest ident

/-- read(): tokenize each line by whitespace and scan for p-tagged lines.
An error models an exception propagating out of read: no records at all are
returned to the caller in that case. -/
def read (lines : List String) : Except PyError (List StablePose) :=
  readAux (lines.map pySplit) none

/-- Identifier tokens that survive the round trip: non-empty and free of
whitespace, so that "id %s" reads back as one token. -/
def ValidId (s : String) : Prop := s.data ≠ [] ∧ ∀ c ∈ s.data, isWsChar c = false

/-- A valid stable-pose record: its probability lies in [0,1] and its
identifier is a single non-empty token. -/
def ValidPose (s : StablePose) : Prop := ValidId s.stp_id ∧ 0 ≤ s.p ∧ s.p ≤ 1

instance (s : String) : Decidable (ValidId s) := by
  unfold ValidId
  infer_instance

instance (s : StablePose) : Decidable (ValidPose s) := by
  unfold ValidPose
  infer_instance

/-- Modelled from the spec: the 8-line banner of §4.3, assembled with string
concatenation: borders, attribution, blank comment lines, the "Num Poses" line
right-padded with 46 minus the digit-length of N spaces before " #", the
"Min Probability" line right-padded with 40 minus the string length of the
min_prob value, then one empty line. -/
def specBannerLines (n : Nat) (minProbStr : String) : List String :=
  [ "#############################################################",
    "# STP file generated by UC Berkeley Automation Sciences Lab #",
    "#                                                           #",
    "# Num Poses: " ++ String.mk (natDigits n) ++
      String.mk (spacesChars (46 - (natDigits n).length)) ++ " #",
    "# Min Probability: " ++ minProbStr ++
      String.mk (spacesChars (40 - minProbStr.length)) ++ " #",
    "#                                                           #",
    "#############################################################",
    "" ]

/-- Modelled from the spec: the six lines of one retained record, §4.3: p and
row 0 carry their tags, rows 1 and 2 are tag-less triplet lines indented by
two spaces, then the x0 and id lines; every float is formatted with 6 digits
after the decimal point. -/
def specRecordLines (s : StablePose) : List String :=
  [ "p " ++ fmt6 s.p,
    "r " ++ fmt6 s.r.row0.a0 ++ " " ++ fmt6 s.r.row0.a1 ++ " " ++ fmt6 s.r.row0.a2,
    "  " ++ fmt6 s.r.row1.a0 ++ " " ++ fmt6 s.r.row1.a1 ++ " " ++ fmt6 s.r.row1.a2,
    "  " ++ fmt6 s.r.row2.a0 ++ " " ++ fmt6 s.r.row2.a1 ++ " " ++ fmt6 s.r.row2.a2,
    "x0 " ++ fmt6 s.x0.a0 ++ " " ++ fmt6 s.x0.a1 ++ " " ++ fmt6 s.x0.a2,
    "id " ++ s.stp_id ]

/-- Modelled from the spec: the full §4.3 layout, banner then six lines for
each record whose probability passes the threshold (in input order) then two
trailing empty lines. -/
def specLayout (records : List StablePose) (min_prob : ℚ) : List String :=
  specBannerLines (records.filter (fun s => min_prob ≤ s.p)).length (pyStr min_prob) ++
    (records.filter (fun s => min_prob ≤ s.p)).flatMap specRecordLines ++ ["", ""]

/-- Token lists of the six lines of one written record, as read's
line.split() sees them. -/
def blockToks (s : StablePose) : List (List String) :=
  [ ["p", fmt6 s.p],
    ["r", fmt6 s.r.row0.a0, fmt6 s.r.row0.a1, fmt6 s.r.row0.a2],
    [fmt6 s.r.row1.a0, fmt6 s.r.row1.a1, fmt6 s.r.row1.a2],
    [fmt6 s.r.row2.a0, fmt6 s.r.row2.a1, fmt6 s.r.row2.a2],
    ["x0", fmt6 s.x0.a0, fmt6 s.x0.a1, fmt6 s.x0.a2],
    ["id", s.stp_id] ]

/-- A tokenized line that starts a record: its first token is the literal p. -/
def isPLine (t : List String) : Bool := t.head? = some "p"

/-! ### Tokenizer lemmas -/

theorem splitWsAux_ws_nil (cs : List Char) : splitWsAux (' ' :: cs) [] = splitWsAux cs [] := by
  simp [splitWsAux, isWsChar]

theorem splitWsAux_ws_acc (cs acc : List Char) (h : acc ≠ []) :
    splitWsAux (' ' :: cs) acc = acc.reverse :: splitWsAux cs [] := by
  obtain ⟨a, as, rfl⟩ := List.exists_cons_of_ne_nil h
  simp [splitWsAux, isWsChar]

theorem splitWsAux_nil_acc (acc : List Char) (h : acc ≠ []) :
    splitWsAux [] acc = [acc.reverse] := by
  obtain ⟨a, as, rfl⟩ := List.exists_cons_of_ne_nil h
  simp [splitWsAux]

theorem splitWsAux_chunk (t : List Char) (ht : ∀ c ∈ t, isWsChar c = false) :
    ∀ rest acc, splitWsAux (t ++ rest) acc = splitWsAux rest (t.reverse ++ acc) := by
  induction t with
  | nil => intro rest acc; simp
  | cons c t ih =>
    intro rest acc
    have hc : isWsChar c = false := ht c (List.mem_cons_self c t)
    have ht' : ∀ d ∈ t, isWsChar d = false := fun d hd => ht d (List.mem_cons_of_mem c hd)
    rw [List.cons_append]
    rw [show splitWsAux (c :: (t ++ rest)) acc = splitWsAux (t ++ rest) (c :: acc) by
      simp [splitWsAux, hc]]
    rw [ih ht' rest (c :: acc)]
    simp [List.reverse_cons, List.append_assoc]

theorem splitWs_tok (t : List Char) (ht : ∀ c ∈ t, isWsChar c = false) (hne : t ≠ []) :
    splitWs t = [t] := by
  have h1 := splitWsAux_chunk t ht [] []
  rw [List.append_nil, List.append_nil] at h1
  rw [splitWs, h1, splitWsAux_nil_acc _ (by simpa using hne), List.reverse_reverse]

theorem splitWs_tok_sep (t rest : List Char) (ht : ∀ c ∈ t, isWsChar c = false)
    (hne : t ≠ []) : splitWs (t ++ ' ' :: rest) = t :: splitWs rest := by
  rw [splitWs, splitWsAux_chunk t ht (' ' :: rest) [], List.append_nil,
    splitWsAux_ws_acc _ _ (by simpa using hne), List.reverse_reverse]
  rfl

theorem splitWs_ws_cons (l : List Char) : splitWs (' ' :: l) = splitWs l :=
  splitWsAux_ws_nil l

theorem splitWsAux_shape (l : List Char) :
    ∀ acc, acc ≠ [] → ∃ t rest, splitWsAux l acc = (acc.reverse ++ t) :: rest := by
  induction l with
  | nil =>
    intro acc h
    exact ⟨[], [], by rw [splitWsAux_nil_acc acc h, List.append_nil]⟩
  | cons c cs ih =>
    intro acc h
    by_cases hc : isWsChar c = true
    · refine ⟨[], splitWsAux cs [], ?_⟩
      obtain ⟨a, as, rfl⟩ := List.exists_cons_of_ne_nil h
      rw [List.append_nil]
      simp [splitWsAux, hc]
    · obtain ⟨t, rest, heq⟩ := ih (c :: acc) (by simp)
      refine ⟨c :: t, rest, ?_⟩
      have : splitWsAux (c :: cs) acc = splitWsAux cs (c :: acc) := by
        simp [splitWsAux, hc]
      rw [this, heq, List.reverse_cons, List.append_assoc]
      rfl

theorem splitWs_cons_nonws (c : Char) (cs : List Char) (hc : isWsChar c = false) :
    splitWs (c :: cs) = splitWsAux cs [c] := by
  simp [splitWs, splitWsAux, hc]

theorem pySplit_head_ne (c : Char) (cs : List Char) (hc : isWsChar c = false)
    (hp : c ≠ 'p') : (pySplit (String.mk (c :: cs))).head? ≠ some "p" := by
  obtain ⟨t, rest, heq⟩ := splitWsAux_shape cs [c] (by simp)
  intro h
  rw [pySplit] at h
  simp only [String.data] at h
  rw [splitWs_cons_nonws c cs hc, heq] at h
  simp only [List.map_cons, List.head?_cons, Option.some.injEq, List.reverse_cons,
    List.reverse_nil, List.nil_append, List.cons_append] at h
  have : c :: (List.nil ++ t) = ['p'] := by
    have := congrArg String.data h
    simpa using this
  simp at this
  exact hp this.1

/-! ### Digit and number-formatting lemmas -/

theorem digitChar_spec (d : Nat) (h : d < 10) :
    isWsChar (digitChar d) = false ∧ digitChar d ≠ 'p' ∧ (digitChar d).isDigit = true ∧
      (digitChar d).toNat - 48 = d ∧ digitChar d ≠ '-' ∧ digitChar d ≠ '+' := by
  interval_cases d <;> exact ⟨by decide, by decide, by decide, by decide, by decide, by decide⟩

theorem natDigitsGo_mem (fuel : Nat) :
    ∀ m, ∀ c ∈ natDigitsGo fuel m, ∃ d, d < 10 ∧ c = digitChar d := by
  induction fuel with
  | zero =>
    intro m c hc
    simp only [natDigitsGo, List.mem_singleton] at hc
    exact ⟨m % 10, Nat.mod_lt _ (by norm_num), hc⟩
  | succ fuel ih =>
    intro m c hc
    by_cases hm : m < 10
    · simp only [natDigitsGo, if_pos hm, List.mem_singleton] at hc
      exact ⟨m, hm, hc⟩
    · simp only [natDigitsGo, if_neg hm, List.mem_append, List.mem_singleton] at hc
      rcases hc with hc | hc
      · exact ih (m / 10) c hc
      · exact ⟨m % 10, Nat.mod_lt _ (by norm_num), hc⟩

theorem natDigits_mem (n : Nat) : ∀ c ∈ natDigits n, ∃ d, d < 10 ∧ c = digitChar d :=
  natDigitsGo_mem n n

theorem natDigitsGo_ne_nil (fuel m : Nat) : natDigitsGo fuel m ≠ [] := by
  cases fuel with
  | zero => simp [natDigitsGo]
  | succ fuel =>
    by_cases hm : m < 10 <;> simp [natDigitsGo, hm]

theorem natDigits_ne_nil (n : Nat) : natDigits n ≠ [] := natDigitsGo_ne_nil n n

theorem natFromDigits_append_digit (l : List Char) (c : Char) :
    natFromDigits (l ++ [c]) = 10 * natFromDigits l + (c.toNat - 48) := by
  simp [natFromDigits, List.foldl_append]

theorem natDigitsGo_val (fuel : Nat) :
    ∀ m, m ≤ fuel → natFromDigits (natDigitsGo fuel m) = m := by
  induction fuel with
  | zero =>
    intro m hm
    interval_cases m
    decide
  | succ fuel ih =>
    intro m hm
    by_cases h10 : m < 10
    · simp only [natDigitsGo, if_pos h10, natFromDigits, List.foldl_cons, List.foldl_nil]
      have := (digitChar_spec m h10).2.2.2.1
      omega
    · have hdiv : m / 10 ≤ fuel := by
        have := Nat.div_lt_self (by omega : 0 < m) (by norm_num : 1 < 10)
        omega
      simp only [natDigitsGo, if_neg h10, natFromDigits_append_digit, ih (m / 10) hdiv]
      have := (digitChar_spec (m % 10) (Nat.mod_lt _ (by norm_num))).2.2.2.1
      omega

theorem natFromDigits_natDigits (n : Nat) : natFromDigits (natDigits n) = n :=
  natDigitsGo_val n n le_rfl

theorem natDigitsGo_len (fuel : Nat) :
    ∀ m k, m < 10 ^ k → 0 < k → (natDigitsGo fuel m).length ≤ k := by
  induction fuel with
  | zero =>
    intro m k _ hk
    simpa [natDigitsGo] using hk
  | succ fuel ih =>
    intro m k hm hk
    by_cases h10 : m < 10
    · simpa [natDigitsGo, h10] using hk
    · have hk2 : 2 ≤ k := by
        by_contra hlt
        have hk1 : k = 1 := by omega
        subst hk1
        norm_num at hm
        omega
      have hdiv : m / 10 < 10 ^ (k - 1) := by
        rw [Nat.div_lt_iff_lt_mul (by norm_num : 0 < 10)]
        have : 10 ^ (k - 1) * 10 = 10 ^ k := by
          rw [← pow_succ]
          congr 1
          omega
        omega
      have := ih (m / 10) (k - 1) hdiv (by omega)
      simp only [natDigitsGo, if_neg h10, List.length_append, List.length_singleton]
      omega

theorem natDigits_len (m k : Nat) (hm : m < 10 ^ k) (hk : 0 < k) :
    (natDigits m).length ≤ k := natDigitsGo_len m m k hm hk

theorem natFromDigits_replicate (k : Nat) (ds : List Char) :
    natFromDigits (List.replicate k '0' ++ ds) = natFromDigits ds := by
  induction k with
  | zero => simp
  | succ k ih =>
    simpa [natFromDigits, List.replicate_succ] using ih

/-! ### Formatting and parsing round trip -/

theorem fmt6Chars_class (q : ℚ) :
    ∀ c ∈ fmt6Chars q, c = '-' ∨ c = '.' ∨ ∃ d, d < 10 ∧ c = digitChar d := by
  intro c hc
  simp only [fmt6Chars] at hc
  rcases List.mem_append.mp hc with h1 | h2
  · rcases List.mem_append.mp h1 with h0 | h3
    · by_cases hn : round (q * 1000000) < (0 : ℤ)
      · rw [if_pos hn] at h0
        exact Or.inl (List.mem_singleton.mp h0)
      · rw [if_neg hn] at h0
        exact absurd h0 (List.not_mem_nil c)
    · exact Or.inr (Or.inr (natDigits_mem _ c h3))
  · rcases List.mem_cons.mp h2 with rfl | h5
    · exact Or.inr (Or.inl rfl)
    · rcases List.mem_append.mp h5 with h6 | h7
      · rcases List.mem_replicate.mp h6 with ⟨-, rfl⟩
        exact Or.inr (Or.inr ⟨0, by norm_num, rfl⟩)
      · exact Or.inr (Or.inr (natDigits_mem _ c h7))

theorem fmt6Chars_ws (q : ℚ) : ∀ c ∈ fmt6Chars q, isWsChar c = false := by
  intro c hc
  rcases fmt6Chars_class q c hc with rfl | rfl | ⟨d, hd, rfl⟩
  · decide
  · decide
  · exact (digitChar_spec d hd).1

theorem fmt6Chars_ne_nil (q : ℚ) : fmt6Chars q ≠ [] := by
  intro h
  simp [fmt6Chars] at h

theorem fmt6_ne_p (q : ℚ) : fmt6 q ≠ "p" := by
  intro h
  have hd : fmt6Chars q = ['p'] := congrArg String.data h
  by_cases hn : round (q * 1000000) < (0 : ℤ)
  · simp [fmt6Chars, hn] at hd
  · obtain ⟨c, t, hct⟩ :=
      List.exists_cons_of_ne_nil (natDigits_ne_nil ((round (q * 1000000)).natAbs / 1000000))
    have hcm := natDigits_mem _ c (hct ▸ List.mem_cons_self c t)
    obtain ⟨d, hdlt, rfl⟩ := hcm
    simp only [fmt6Chars, hn, if_false, List.nil_append, hct, List.cons_append,
      List.cons.injEq] at hd
    exact (digitChar_spec d hdlt).2.1 hd.1

theorem digitPartAux_run (ds : List Char) (hds : ∀ c ∈ ds, Char.isDigit c = true) :
    ∀ (rest : List Char) (v k : Nat),
      (rest = [] ∨ ∃ c r, rest = c :: r ∧ Char.isDigit c = false ∧ c ≠ '_') →
      digitPartAux (ds ++ rest) v k =
        (ds.foldl (fun a c => 10 * a + (c.toNat - 48)) v, k + ds.length, rest) := by
  induction ds with
  | nil =>
    intro rest v k hrest
    rcases hrest with rfl | ⟨c, r, rfl, hcd, hcu⟩
    · rfl
    · simp [digitPartAux, hcd, hcu]
  | cons d ds ih =>
    intro rest v k hrest
    have hd : Char.isDigit d = true := hds d (List.mem_cons_self d ds)
    rw [List.cons_append,
      show digitPartAux (d :: (ds ++ rest)) v k =
        digitPartAux (ds ++ rest) (10 * v + (d.toNat - 48)) (k + 1) by
          simp [digitPartAux, hd],
      ih (fun c hc => hds c (List.mem_cons_of_mem d hc)) rest _ _ hrest]
    simp only [List.foldl_cons, List.length_cons, Prod.mk.injEq]
    exact ⟨by trivial, by omega, by trivial⟩

theorem digitPartAux_all (ds : List Char) (hds : ∀ c ∈ ds, Char.isDigit c = true) :
    digitPartAux ds 0 0 = (natFromDigits ds, ds.length, []) := by
  have h := digitPartAux_run ds hds [] 0 0 (Or.inl rfl)
  rw [List.append_nil] at h
  rw [h]
  simp [natFromDigits]

theorem parsePos_decimal (ip fr : List Char) (hip : ∀ c ∈ ip, Char.isDigit c = true)
    (hipne : ip ≠ []) (hfr : ∀ c ∈ fr, Char.isDigit c = true) :
    parsePosChars (ip ++ '.' :: fr) =
      some ((natFromDigits ip : ℚ) + (natFromDigits fr : ℚ) / (10 : ℚ) ^ fr.length) := by
  have h1 := digitPartAux_run ip hip ('.' :: fr) 0 0
    (Or.inr ⟨'.', fr, rfl, by decide, by decide⟩)
  have h2 := digitPartAux_all fr hfr
  have hne : ¬(0 + ip.length = 0 ∧ fr.length = 0) := by
    intro hcon
    have : ip.length = 0 := by omega
    exact hipne (List.length_eq_zero.mp this)
  simp only [parsePosChars, h1, h2, natFromDigits]
  rw [if_neg hne]

theorem parse_fmtInt (n : ℤ) :
    parseQChars ((if n < 0 then ['-'] else []) ++ natDigits (n.natAbs / 1000000) ++
        '.' :: (List.replicate (6 - (natDigits (n.natAbs % 1000000)).length) '0' ++
          natDigits (n.natAbs % 1000000))) = some ((n : ℚ) / 1000000) := by
  have hF6 : n.natAbs % 1000000 < 10 ^ 6 := by
    have := Nat.mod_lt n.natAbs (show 0 < 1000000 by norm_num)
    omega
  have hlen : (natDigits (n.natAbs % 1000000)).length ≤ 6 :=
    natDigits_len _ 6 hF6 (by norm_num)
  have hfrdig : ∀ c ∈ List.replicate (6 - (natDigits (n.natAbs % 1000000)).length) '0' ++
      natDigits (n.natAbs % 1000000), Char.isDigit c = true := by
    intro c hc
    rcases List.mem_append.mp hc with hc | hc
    · rcases List.mem_replicate.mp hc with ⟨-, rfl⟩
      decide
    · obtain ⟨d, hd, rfl⟩ := natDigits_mem _ c hc
      exact (digitChar_spec d hd).2.2.1
  have hipdig : ∀ c ∈ natDigits (n.natAbs / 1000000), Char.isDigit c = true := by
    intro c hc
    obtain ⟨d, hd, rfl⟩ := natDigits_mem _ c hc
    exact (digitChar_spec d hd).2.2.1
  have hfrlen : (List.replicate (6 - (natDigits (n.natAbs % 1000000)).length) '0' ++
      natDigits (n.natAbs % 1000000)).length = 6 := by
    simp only [List.length_append, List.length_replicate]
    omega
  have hfrval : (natFromDigits (List.replicate (6 - (natDigits (n.natAbs % 1000000)).length) '0' ++
      natDigits (n.natAbs % 1000000)) : ℚ) = ((n.natAbs % 1000000 : Nat) : ℚ) := by
    rw [natFromDigits_replicate, natFromDigits_natDigits]
  have hval : ((natFromDigits (natDigits (n.natAbs / 1000000)) : ℚ) +
      (natFromDigits (List.replicate (6 - (natDigits (n.natAbs % 1000000)).length) '0' ++
        natDigits (n.natAbs % 1000000)) : ℚ) /
        (10 : ℚ) ^ (List.replicate (6 - (natDigits (n.natAbs % 1000000)).length) '0' ++
          natDigits (n.natAbs % 1000000)).length) = (n.natAbs : ℚ) / 1000000 := by
    rw [natFromDigits_natDigits, hfrval, hfrlen]
    have hdm : (1000000 : Nat) * (n.natAbs / 1000000) + n.natAbs % 1000000 = n.natAbs :=
      Nat.div_add_mod _ _
    have hcast : ((n.natAbs : ℚ)) =
        1000000 * ((n.natAbs / 1000000 : Nat) : ℚ) + ((n.natAbs % 1000000 : Nat) : ℚ) := by
      exact_mod_cast hdm.symm
    rw [hcast]
    field_simp
    ring
  by_cases hneg : n < 0
  · have habs : (n.natAbs : ℚ) = -(n : ℚ) := by
      rw [Int.cast_natAbs, abs_of_neg hneg]
      push_cast
      ring
    simp only [if_pos hneg, List.cons_append, List.nil_append]
    have hq : parseQChars ('-' :: (natDigits (n.natAbs / 1000000) ++
        '.' :: (List.replicate (6 - (natDigits (n.natAbs % 1000000)).length) '0' ++
          natDigits (n.natAbs % 1000000)))) =
        (parsePosChars (natDigits (n.natAbs / 1000000) ++
          '.' :: (List.replicate (6 - (natDigits (n.natAbs % 1000000)).length) '0' ++
            natDigits (n.natAbs % 1000000)))).map (fun q => -q) := by
      simp [parseQChars]
    rw [hq, parsePos_decimal _ _ hipdig (natDigits_ne_nil _) hfrdig, Option.map_some']
    congr 1
    rw [hval, habs]
    ring
  · have habs : (n.natAbs : ℚ) = (n : ℚ) := by
      rw [Int.cast_natAbs, abs_of_nonneg (not_lt.mp hneg)]
    obtain ⟨c, t, hct⟩ := List.exists_cons_of_ne_nil (natDigits_ne_nil (n.natAbs / 1000000))
    obtain ⟨d, hdlt, hcd⟩ := natDigits_mem _ c (hct ▸ List.mem_cons_self c t)
    simp only [if_neg hneg, List.nil_append]
    rw [hct, List.cons_append]
    have hq : parseQChars (c :: (t ++
        '.' :: (List.replicate (6 - (natDigits (n.natAbs % 1000000)).length) '0' ++
          natDigits (n.natAbs % 1000000)))) =
        parsePosChars (c :: (t ++
          '.' :: (List.replicate (6 - (natDigits (n.natAbs % 1000000)).length) '0' ++
            natDigits (n.natAbs % 1000000)))) := by
      have h1 : c ≠ '-' := hcd ▸ (digitChar_spec d hdlt).2.2.2.2.1
      have h2 : c ≠ '+' := hcd ▸ (digitChar_spec d hdlt).2.2.2.2.2
      simp [parseQChars, h1, h2]
    rw [hq, ← List.cons_append, ← hct,
      parsePos_decimal _ _ hipdig (natDigits_ne_nil _) hfrdig, hval, habs]

theorem parseQ_fmt6 (q : ℚ) : parseQ (fmt6 q) = some (fround6 q) := by
  have h := parse_fmtInt (round (q * 1000000))
  simpa [parseQ, fmt6, fmt6Chars, fround6] using h

/-! ### Except helpers -/

theorem error_bind {α β : Type} (e : PyError) (f : α → Except PyError β) :
    (Except.error e : Except PyError α) >>= f = Except.error e := rfl

theorem ok_bind {α β : Type} (a : α) (f : α → Except PyError β) :
    (Except.ok a : Except PyError α) >>= f = f a := rfl

theorem bind_ok_inv {α β : Type} {x : Except PyError α} {f : α → Except PyError β} {b : β}
    (h : x >>= f = Except.ok b) : ∃ a, x = Except.ok a ∧ f a = Except.ok b := by
  cases x with
  | error e => rw [error_bind] at h; exact absurd h (by simp)
  | ok a => exact ⟨a, rfl, h⟩

theorem bind_isErr {α β : Type} (x : Except PyError α) (f : α → Except PyError β)
    (h : ∀ a, ∃ e, f a = Except.error e) : ∃ e, x >>= f = Except.error e := by
  cases x with
  | error e => exact ⟨e, rfl⟩
  | ok a => simpa [ok_bind] using h a

theorem bind_ok_map {α β : Type} (x : Except PyError α) (f : α → β) :
    (x >>= fun a => Except.ok (f a)) = x.map f := by
  cases x <;> rfl

/-! ### Unfolding the read loop -/

theorem readAux_nil (ident : Option String) : readAux [] ident = Except.ok [] := rfl

theorem readAux_skip (line : List String) (rest : List (List String)) (ident : Option String)
    (h : line.head? ≠ some "p") : readAux (line :: rest) ident = readAux rest ident := by
  simp [readAux, h]

theorem readAux_p (line : List String) (rest : List (List String)) (ident : Option String)
    (h : line.head? = some "p") :
    readAux (line :: rest) ident =
      parseBlock (line :: rest) ident >>= fun pose =>
        readAux rest (nextIdent (line :: rest) ident) >>= fun tail =>
          Except.ok (pose :: tail) := by
  simp [readAux, h]

theorem readAux_skip_pre (pre : List (List String))
    (hpre : ∀ t ∈ pre, t.head? ≠ some "p") :
    ∀ (rest : List (List String)) (ident : Option String),
      readAux (pre ++ rest) ident = readAux rest ident := by
  induction pre with
  | nil => intro rest ident; rfl
  | cons t pre ih =>
    intro rest ident
    rw [List.cons_append, readAux_skip t _ _ (hpre t (List.mem_cons_self t pre))]
    exact ih (fun x hx => hpre x (List.mem_cons_of_mem t hx)) rest ident

theorem head_cons_ne (a : String) (l : List String) (h : a ≠ "p") :
    (a :: l).head? ≠ some "p" := by simp [h]

theorem pySplit_hash_head (l : List Char) :
    (pySplit (String.mk ('#' :: l))).head? ≠ some "p" :=
  pySplit_head_ne '#' l (by decide) (by decide)

theorem bannerLines_no_p (n : Nat) (pstr : String) :
    ∀ t ∈ (bannerLines n pstr).map pySplit, t.head? ≠ some "p" := by
  intro t ht
  simp only [bannerLines, List.map_cons, List.map_nil, List.mem_cons,
    List.not_mem_nil, or_false] at ht
  rcases ht with rfl | rfl | rfl | rfl | rfl | rfl | rfl | rfl
  · exact pySplit_hash_head _
  · exact pySplit_hash_head _
  · exact pySplit_hash_head _
  · exact pySplit_hash_head _
  · exact pySplit_hash_head _
  · exact pySplit_hash_head _
  · exact pySplit_hash_head _
  · decide

/-! ### Tokenizing written record lines -/

theorem splitWs_tag1 (c : Char) (hc : isWsChar c = false) (F : List Char)
    (hF : ∀ x ∈ F, isWsChar x = false) (hFne : F ≠ []) :
    splitWs (c :: ' ' :: F) = [[c], F] := by
  rw [show c :: ' ' :: F = [c] ++ ' ' :: F from rfl,
    splitWs_tok_sep [c] F (by simpa using hc) (by simp), splitWs_tok F hF hFne]

theorem splitWs_triple (F1 F2 F3 : List Char)
    (h1 : ∀ x ∈ F1, isWsChar x = false) (hne1 : F1 ≠ [])
    (h2 : ∀ x ∈ F2, isWsChar x = false) (hne2 : F2 ≠ [])
    (h3 : ∀ x ∈ F3, isWsChar x = false) (hne3 : F3 ≠ []) :
    splitWs (F1 ++ ' ' :: (F2 ++ ' ' :: F3)) = [F1, F2, F3] := by
  rw [splitWs_tok_sep F1 _ h1 hne1, splitWs_tok_sep F2 _ h2 hne2, splitWs_tok F3 h3 hne3]

theorem splitWs_tag2_triple (c1 c2 : Char) (hc1 : isWsChar c1 = false)
    (hc2 : isWsChar c2 = false) (F1 F2 F3 : List Char)
    (h1 : ∀ x ∈ F1, isWsChar x = false) (hne1 : F1 ≠ [])
    (h2 : ∀ x ∈ F2, isWsChar x = false) (hne2 : F2 ≠ [])
    (h3 : ∀ x ∈ F3, isWsChar x = false) (hne3 : F3 ≠ []) :
    splitWs (c1 :: c2 :: ' ' :: (F1 ++ ' ' :: (F2 ++ ' ' :: F3))) = [[c1, c2], F1, F2, F3] := by
  rw [show c1 :: c2 :: ' ' :: (F1 ++ ' ' :: (F2 ++ ' ' :: F3)) =
      [c1, c2] ++ ' ' :: (F1 ++ ' ' :: (F2 ++ ' ' :: F3)) from rfl,
    splitWs_tok_sep [c1, c2] _ (by simp [hc1, hc2]) (by simp),
    splitWs_triple F1 F2 F3 h1 hne1 h2 hne2 h3 hne3]

theorem splitWs_tag1_triple (c : Char) (hc : isWsChar c = false) (F1 F2 F3 : List Char)
    (h1 : ∀ x ∈ F1, isWsChar x = false) (hne1 : F1 ≠ [])
    (h2 : ∀ x ∈ F2, isWsChar x = false) (hne2 : F2 ≠ [])
    (h3 : ∀ x ∈ F3, isWsChar x = false) (hne3 : F3 ≠ []) :
    splitWs (c :: ' ' :: (F1 ++ ' ' :: (F2 ++ ' ' :: F3))) = [[c], F1, F2, F3] := by
  rw [show c :: ' ' :: (F1 ++ ' ' :: (F2 ++ ' ' :: F3)) =
      [c] ++ ' ' :: (F1 ++ ' ' :: (F2 ++ ' ' :: F3)) from rfl,
    splitWs_tok_sep [c] _ (by simpa using hc) (by simp),
    splitWs_triple F1 F2 F3 h1 hne1 h2 hne2 h3 hne3]

theorem splitWs_indent_triple (F1 F2 F3 : List Char)
    (h1 : ∀ x ∈ F1, isWsChar x = false) (hne1 : F1 ≠ [])
    (h2 : ∀ x ∈ F2, isWsChar x = false) (hne2 : F2 ≠ [])
    (h3 : ∀ x ∈ F3, isWsChar x = false) (hne3 : F3 ≠ []) :
    splitWs (' ' :: ' ' :: (F1 ++ ' ' :: (F2 ++ ' ' :: F3))) = [F1, F2, F3] := by
  rw [splitWs_ws_cons, splitWs_ws_cons, splitWs_triple F1 F2 F3 h1 hne1 h2 hne2 h3 hne3]

theorem splitWs_tag2 (c1 c2 : Char) (hc1 : isWsChar c1 = false) (hc2 : isWsChar c2 = false)
    (F : List Char) (hF : ∀ x ∈ F, isWsChar x = false) (hFne : F ≠ []) :
    splitWs (c1 :: c2 :: ' ' :: F) = [[c1, c2], F] := by
  rw [show c1 :: c2 :: ' ' :: F = [c1, c2] ++ ' ' :: F from rfl,
    splitWs_tok_sep [c1, c2] F (by simp [hc1, hc2]) (by simp), splitWs_tok F hF hFne]

theorem pySplit_poseLines (s : StablePose) (hid : ValidId s.stp_id) :
    (poseLines s).map pySplit = blockToks s := by
  obtain ⟨hne, hws⟩ := hid
  simp only [poseLines, blockToks, List.map_cons, List.map_nil, List.cons.injEq, and_true]
  refine ⟨?_, ?_, ?_, ?_, ?_, ?_⟩
  · show (splitWs ('p' :: ' ' :: fmt6Chars s.p)).map String.mk = _
    rw [splitWs_tag1 'p' (by decide) _ (fmt6Chars_ws s.p) (fmt6Chars_ne_nil s.p)]
    rfl
  · show (splitWs ('r' :: ' ' :: (fmt6Chars s.r.row0.a0 ++ ' ' ::
      (fmt6Chars s.r.row0.a1 ++ ' ' :: fmt6Chars s.r.row0.a2)))).map String.mk = _
    rw [splitWs_tag1_triple 'r' (by decide) _ _ _ (fmt6Chars_ws _) (fmt6Chars_ne_nil _)
      (fmt6Chars_ws _) (fmt6Chars_ne_nil _) (fmt6Chars_ws _) (fmt6Chars_ne_nil _)]
    rfl
  · show (splitWs (' ' :: ' ' :: (fmt6Chars s.r.row1.a0 ++ ' ' ::
      (fmt6Chars s.r.row1.a1 ++ ' ' :: fmt6Chars s.r.row1.a2)))).map String.mk = _
    rw [splitWs_indent_triple _ _ _ (fmt6Chars_ws _) (fmt6Chars_ne_nil _)
      (fmt6Chars_ws _) (fmt6Chars_ne_nil _) (fmt6Chars_ws _) (fmt6Chars_ne_nil _)]
    rfl
  · show (splitWs (' ' :: ' ' :: (fmt6Chars s.r.row2.a0 ++ ' ' ::
      (fmt6Chars s.r.row2.a1 ++ ' ' :: fmt6Chars s.r.row2.a2)))).map String.mk = _
    rw [splitWs_indent_triple _ _ _ (fmt6Chars_ws _) (fmt6Chars_ne_nil _)
      (fmt6Chars_ws _) (fmt6Chars_ne_nil _) (fmt6Chars_ws _) (fmt6Chars_ne_nil _)]
    rfl
  · show (splitWs ('x' :: '0' :: ' ' :: (fmt6Chars s.x0.a0 ++ ' ' ::
      (fmt6Chars s.x0.a1 ++ ' ' :: fmt6Chars s.x0.a2)))).map String.mk = _
    rw [splitWs_tag2_triple 'x' '0' (by decide) (by decide) _ _ _
      (fmt6Chars_ws _) (fmt6Chars_ne_nil _) (fmt6Chars_ws _) (fmt6Chars_ne_nil _)
      (fmt6Chars_ws _) (fmt6Chars_ne_nil _)]
    rfl
  · show (splitWs ('i' :: 'd' :: ' ' :: s.stp_id.data)).map String.mk = _
    rw [splitWs_tag2 'i' 'd' (by decide) (by decide) _ hws hne]
    rfl

/-! ### Evaluating the loop on one written block -/

theorem nextIdent_block (s : StablePose) (rest : List (List String)) (ident : Option String) :
    nextIdent (blockToks s ++ rest) ident = some s.stp_id := rfl

theorem parseBlock_block (s : StablePose) (rest : List (List String)) (ident : Option String) :
    parseBlock (blockToks s ++ rest) ident = Except.ok (roundPose s) := by
  simp only [parseBlock,
    show tokAt (blockToks s ++ rest) 0 1 = Except.ok (fmt6 s.p) from rfl,
    show tokAt (blockToks s ++ rest) 1 1 = Except.ok (fmt6 s.r.row0.a0) from rfl,
    show tokAt (blockToks s ++ rest) 1 2 = Except.ok (fmt6 s.r.row0.a1) from rfl,
    show tokAt (blockToks s ++ rest) 1 3 = Except.ok (fmt6 s.r.row0.a2) from rfl,
    show tokAt (blockToks s ++ rest) 2 0 = Except.ok (fmt6 s.r.row1.a0) from rfl,
    show tokAt (blockToks s ++ rest) 2 1 = Except.ok (fmt6 s.r.row1.a1) from rfl,
    show tokAt (blockToks s ++ rest) 2 2 = Except.ok (fmt6 s.r.row1.a2) from rfl,
    show tokAt (blockToks s ++ rest) 3 0 = Except.ok (fmt6 s.r.row2.a0) from rfl,
    show tokAt (blockToks s ++ rest) 3 1 = Except.ok (fmt6 s.r.row2.a1) from rfl,
    show tokAt (blockToks s ++ rest) 3 2 = Except.ok (fmt6 s.r.row2.a2) from rfl,
    show tokAt (blockToks s ++ rest) 4 1 = Except.ok (fmt6 s.x0.a0) from rfl,
    show tokAt (blockToks s ++ rest) 4 2 = Except.ok (fmt6 s.x0.a1) from rfl,
    show tokAt (blockToks s ++ rest) 4 3 = Except.ok (fmt6 s.x0.a2) from rfl,
    nextIdent_block, ok_bind, toFloat, parseQ_fmt6, roundPose, roundMat3, roundVec3]

theorem readAux_block (s : StablePose) (rest : List (List String)) (ident : Option String)
    (hid : ValidId s.stp_id) :
    readAux ((poseLines s).map pySplit ++ rest) ident =
      (readAux rest (some s.stp_id)).map (fun tail => roundPose s :: tail) := by
  rw [pySplit_poseLines s hid]
  rw [show blockToks s ++ rest = ["p", fmt6 s.p] ::
    (["r", fmt6 s.r.row0.a0, fmt6 s.r.row0.a1, fmt6 s.r.row0.a2] ::
      ([fmt6 s.r.row1.a0, fmt6 s.r.row1.a1, fmt6 s.r.row1.a2] ::
        ([fmt6 s.r.row2.a0, fmt6 s.r.row2.a1, fmt6 s.r.row2.a2] ::
          (["x0", fmt6 s.x0.a0, fmt6 s.x0.a1, fmt6 s.x0.a2] ::
            (["id", s.stp_id] :: rest))))) from rfl]
  rw [readAux_p _ _ _ (by rfl)]
  rw [show (["p", fmt6 s.p] ::
    (["r", fmt6 s.r.row0.a0, fmt6 s.r.row0.a1, fmt6 s.r.row0.a2] ::
      ([fmt6 s.r.row1.a0, fmt6 s.r.row1.a1, fmt6 s.r.row1.a2] ::
        ([fmt6 s.r.row2.a0, fmt6 s.r.row2.a1, fmt6 s.r.row2.a2] ::
          (["x0", fmt6 s.x0.a0, fmt6 s.x0.a1, fmt6 s.x0.a2] ::
            (["id", s.stp_id] :: rest)))))) = blockToks s ++ rest from rfl]
  rw [parseBlock_block, nextIdent_block, ok_bind]
  rw [readAux_skip _ _ _ (head_cons_ne "r" _ (by decide)),
    readAux_skip _ _ _ (head_cons_ne _ _ (fmt6_ne_p s.r.row1.a0)),
    readAux_skip _ _ _ (head_cons_ne _ _ (fmt6_ne_p s.r.row2.a0)),
    readAux_skip _ _ _ (head_cons_ne "x0" _ (by decide)),
    readAux_skip _ _ _ (head_cons_ne "id" _ (by decide)),
    bind_ok_map]

theorem readAux_records (poses : List StablePose) (hval : ∀ s ∈ poses, ValidPose s) :
    ∀ (rest : List (List String)) (ident : Option String),
      readAux ((poses.flatMap poseLines).map pySplit ++ rest) ident =
        (readAux rest (poses.foldl (fun _ s => some s.stp_id) ident)).map
          (fun tail => poses.map roundPose ++ tail) := by
  induction poses with
  | nil =>
    intro rest ident
    simp only [List.flatMap_nil, List.map_nil, List.nil_append, List.foldl_nil,
      List.map_nil, List.nil_append]
    cases readAux rest ident <;> simp [Except.map]
  | cons s poses ih =>
    intro rest ident
    have hids : ValidId s.stp_id := (hval s (List.mem_cons_self s poses)).1
    rw [List.flatMap_cons, List.map_append, List.append_assoc,
      readAux_block s _ _ hids,
      ih (fun x hx => hval x (List.mem_cons_of_mem s hx)) rest (some s.stp_id)]
    rw [List.foldl_cons]
    cases readAux rest (List.foldl (fun _ s => some s.stp_id) (some s.stp_id) poses) <;>
      simp [Except.map]

theorem readAux_trailing (ident : Option String) :
    readAux (List.map pySplit ["", ""]) ident = Except.ok [] := rfl

theorem read_write (l : List StablePose) (X : ℚ) (hval : ∀ s ∈ l, ValidPose s) :
    read (write l X) = Except.ok ((l.filter (fun s => X ≤ s.p)).map roundPose) := by
  show readAux ((write l X).map pySplit) none = _
  rw [write]
  rw [List.map_append, List.map_append, List.append_assoc,
    readAux_skip_pre _ (bannerLines_no_p _ _),
    readAux_records _ (fun x hx => hval x (List.mem_of_mem_filter hx)) _ none,
    readAux_trailing]
  simp [Except.map]
/-! ### Inversion: what a successful block parse says about the p token -/

theorem parseBlock_ok_p {cur : List (List String)} {ident : Option String}
    {pose : StablePose} (h : parseBlock cur ident = Except.ok pose) :
    ∃ s, tokAt cur 0 1 = Except.ok s ∧ parseQ s = some pose.p := by
  simp only [parseBlock] at h
  obtain ⟨ps, hps, h⟩ := bind_ok_inv h
  obtain ⟨p, hp, h⟩ := bind_ok_inv h
  obtain ⟨s00, hs00, h⟩ := bind_ok_inv h
  obtain ⟨s01, hs01, h⟩ := bind_ok_inv h
  obtain ⟨s02, hs02, h⟩ := bind_ok_inv h
  obtain ⟨s10, hs10, h⟩ := bind_ok_inv h
  obtain ⟨s11, hs11, h⟩ := bind_ok_inv h
  obtain ⟨s12, hs12, h⟩ := bind_ok_inv h
  obtain ⟨s20, hs20, h⟩ := bind_ok_inv h
  obtain ⟨s21, hs21, h⟩ := bind_ok_inv h
  obtain ⟨s22, hs22, h⟩ := bind_ok_inv h
  obtain ⟨r00, hr00, h⟩ := bind_ok_inv h
  obtain ⟨r01, hr01, h⟩ := bind_ok_inv h
  obtain ⟨r02, hr02, h⟩ := bind_ok_inv h
  obtain ⟨r10, hr10, h⟩ := bind_ok_inv h
  obtain ⟨r11, hr11, h⟩ := bind_ok_inv h
  obtain ⟨r12, hr12, h⟩ := bind_ok_inv h
  obtain ⟨r20, hr20, h⟩ := bind_ok_inv h
  obtain ⟨r21, hr21, h⟩ := bind_ok_inv h
  obtain ⟨r22, hr22, h⟩ := bind_ok_inv h
  obtain ⟨sx0, hsx0, h⟩ := bind_ok_inv h
  obtain ⟨sx1, hsx1, h⟩ := bind_ok_inv h
  obtain ⟨sx2, hsx2, h⟩ := bind_ok_inv h
  obtain ⟨t0, ht0, h⟩ := bind_ok_inv h
  obtain ⟨t1, ht1, h⟩ := bind_ok_inv h
  obtain ⟨t2, ht2, h⟩ := bind_ok_inv h
  refine ⟨ps, hps, ?_⟩
  have hpq : parseQ ps = some p := by
    unfold toFloat at hp
    cases hq : parseQ ps with
    | none => rw [hq] at hp; exact absurd hp (by simp)
    | some q => rw [hq] at hp; rw [Except.ok.inj hp]
  cases hni : nextIdent cur ident with
  | none => rw [hni] at h; exact absurd h (by simp)
  | some idv =>
    rw [hni] at h
    have hpp := Except.ok.inj h
    rw [← hpp]
    exact hpq

/-! ### Order and length of the records read -/

theorem readAux_order :
    ∀ (data : List (List String)) (ident : Option String) (res : List StablePose),
      readAux data ident = Except.ok res →
      res.map (fun s => some s.p) =
        (data.filter isPLine).map (fun t => (t.get? 1).bind parseQ) := by
  intro data
  induction data with
  | nil =>
    intro ident res h
    rw [readAux_nil] at h
    rw [← Except.ok.inj h]
    rfl
  | cons t rest ih =>
    intro ident res h
    by_cases hp : t.head? = some "p"
    · rw [readAux_p t rest ident hp] at h
      obtain ⟨pose, hpose, h⟩ := bind_ok_inv h
      obtain ⟨tail, htail, h⟩ := bind_ok_inv h
      rw [← Except.ok.inj h]
      rw [List.filter_cons_of_pos (by simp [isPLine, hp])]
      obtain ⟨s, hs, hsp⟩ := parseBlock_ok_p hpose
      have hts : t.get? 1 = some s := by
        unfold tokAt at hs
        simp only [List.get?_cons_zero] at hs
        cases ht1 : t.get? 1 with
        | none => rw [ht1] at hs; exact absurd hs (by simp)
        | some u => rw [ht1] at hs; rw [Except.ok.inj hs]
      rw [List.map_cons, List.map_cons, hts, ih (nextIdent (t :: rest) ident) tail htail]
      simp [hsp]
    · rw [readAux_skip t rest ident hp] at h
      rw [List.filter_cons_of_neg (by simp [isPLine, hp])]
      exact ih ident res h

/-! ### The p lines of a written file -/

theorem isPLine_blockRow (q : ℚ) (l : List String) : isPLine (fmt6 q :: l) = false := by
  simp [isPLine, fmt6_ne_p q]

theorem filter_blockToks (s : StablePose) :
    (blockToks s).filter isPLine = [["p", fmt6 s.p]] := by
  simp only [blockToks, List.filter_cons, isPLine_blockRow]
  rfl

theorem writtenBlocks_filter (R : List StablePose) (hval : ∀ s ∈ R, ValidId s.stp_id) :
    ((R.flatMap poseLines).map pySplit).filter isPLine =
      R.map (fun s => ["p", fmt6 s.p]) := by
  induction R with
  | nil => rfl
  | cons s R ih =>
    rw [List.flatMap_cons, List.map_append, List.filter_append,
      pySplit_poseLines s (hval s (List.mem_cons_self s R)), filter_blockToks,
      ih (fun x hx => hval x (List.mem_cons_of_mem s hx))]
    rfl

theorem banner_filter (n : Nat) (pstr : String) :
    ((bannerLines n pstr).map pySplit).filter isPLine = [] := by
  rw [List.filter_eq_nil_iff]
  intro t ht
  have := bannerLines_no_p n pstr t ht
  simp [isPLine, this]

theorem write_pLines (l : List StablePose) (X : ℚ) (hval : ∀ s ∈ l, ValidPose s) :
    ((write l X).map pySplit).filter isPLine =
      (l.filter (fun s => X ≤ s.p)).map (fun s => ["p", fmt6 s.p]) := by
  rw [write]
  rw [List.map_append, List.map_append, List.filter_append, List.filter_append,
    banner_filter, writtenBlocks_filter _ (fun s hs => (hval s (List.mem_of_mem_filter hs)).1)]
  have h0 : List.filter isPLine (List.map pySplit ["", ""]) = [] := by decide
  rw [h0]
  simp

/-! ### Error propagation -/

theorem readAux_err_extend (suffix : List (List String))
    (h : ∀ ident, ∃ e, readAux suffix ident = Except.error e) :
    ∀ (pre : List (List String)) (ident : Option String),
      ∃ e, readAux (pre ++ suffix) ident = Except.error e := by
  intro pre
  induction pre with
  | nil => exact h
  | cons t pre ih =>
    intro ident
    rw [List.cons_append]
    by_cases hp : t.head? = some "p"
    · rw [readAux_p t _ ident hp]
      cases hpb : parseBlock (t :: (pre ++ suffix)) ident with
      | error e => exact ⟨e, by rw [error_bind]⟩
      | ok pose =>
        obtain ⟨e, he⟩ := ih (nextIdent (t :: (pre ++ suffix)) ident)
        exact ⟨e, by rw [ok_bind, he, error_bind]⟩
    · rw [readAux_skip t _ ident hp]
      exact ih ident

theorem parseBlock_tokErr {cur : List (List String)} (ident : Option String)
    (hshort : tokAt cur 0 1 = Except.error PyError.indexErr ∨
      tokAt cur 1 1 = Except.error PyError.indexErr ∨
      tokAt cur 1 2 = Except.error PyError.indexErr ∨
      tokAt cur 1 3 = Except.error PyError.indexErr ∨
      tokAt cur 2 0 = Except.error PyError.indexErr ∨
      tokAt cur 2 1 = Except.error PyError.indexErr ∨
      tokAt cur 2 2 = Except.error PyError.indexErr ∨
      tokAt cur 3 0 = Except.error PyError.indexErr ∨
      tokAt cur 3 1 = Except.error PyError.indexErr ∨
      tokAt cur 3 2 = Except.error PyError.indexErr ∨
      tokAt cur 4 1 = Except.error PyError.indexErr ∨
      tokAt cur 4 2 = Except.error PyError.indexErr ∨
      tokAt cur 4 3 = Except.error PyError.indexErr) :
    ∃ e, parseBlock cur ident = Except.error e := by
  simp only [parseBlock]
  rcases hshort with h | h | h | h | h | h | h | h | h | h | h | h | h
  · exact ⟨_, by rw [h, error_bind]⟩
  · refine bind_isErr _ _ (fun _ => ?_)
    refine bind_isErr _ _ (fun _ => ?_)
    exact ⟨_, by rw [h, error_bind]⟩
  · refine bind_isErr _ _ (fun _ => ?_)
    refine bind_isErr _ _ (fun _ => ?_)
    refine bind_isErr _ _ (fun _ => ?_)
    exact ⟨_, by rw [h, error_bind]⟩
  · refine bind_isErr _ _ (fun _ => ?_)
    refine bind_isErr _ _ (fun _ => ?_)
    refine bind_isErr _ _ (fun _ => ?_)
    refine bind_isErr _ _ (fun _ => ?_)
    exact ⟨_, by rw [h, error_bind]⟩
  · refine bind_isErr _ _ (fun _ => ?_)
    refine bind_isErr _ _ (fun _ => ?_)
    refine bind_isErr _ _ (fun _ => ?_)
    refine bind_isErr _ _ (fun _ => ?_)
    refine bind_isErr _ _ (fun _ => ?_)
    exact ⟨_, by rw [h, error_bind]⟩
  · refine bind_isErr _ _ (fun _ => ?_)
    refine bind_isErr _ _ (fun _ => ?_)
    refine bind_isErr _ _ (fun _ => ?_)
    refine bind_isErr _ _ (fun _ => ?_)
    refine bind_isErr _ _ (fun _ => ?_)
    refine bind_isErr _ _ (fun _ => ?_)
    exact ⟨_, by rw [h, error_bind]⟩
  · refine bind_isErr _ _ (fun _ => ?_)
    refine bind_isErr _ _ (fun _ => ?_)
    refine bind_isErr _ _ (fun _ => ?_)
    refine bind_isErr _ _ (fun _ => ?_)
    refine bind_isErr _ _ (fun _ => ?_)
    refine bind_isErr _ _ (fun _ => ?_)
    refine bind_isErr _ _ (fun _ => ?_)
    exact ⟨_, by rw [h, error_bind]⟩
  · refine bind_isErr _ _ (fun _ => ?_)
    refine bind_isErr _ _ (fun _ => ?_)
    refine bind_isErr _ _ (fun _ => ?_)
    refine bind_isErr _ _ (fun _ => ?_)
    refine bind_isErr _ _ (fun _ => ?_)
    refine bind_isErr _ _ (fun _ => ?_)
    refine bind_isErr _ _ (fun _ => ?_)
    refine bind_isErr _ _ (fun _ => ?_)
    exact ⟨_, by rw [h, error_bind]⟩
  · refine bind_isErr _ _ (fun _ => ?_)
    refine bind_isErr _ _ (fun _ => ?_)
    refine bind_isErr _ _ (fun _ => ?_)
    refine bind_isErr _ _ (fun _ => ?_)
    refine bind_isErr _ _ (fun _ => ?_)
    refine bind_isErr _ _ (fun _ => ?_)
    refine bind_isErr _ _ (fun _ => ?_)
    refine bind_isErr _ _ (fun _ => ?_)
    refine bind_isErr _ _ (fun _ => ?_)
    exact ⟨_, by rw [h, error_bind]⟩
  · refine bind_isErr _ _ (fun _ => ?_)
    refine bind_isErr _ _ (fun _ => ?_)
    refine bind_isErr _ _ (fun _ => ?_)
    refine bind_isErr _ _ (fun _ => ?_)
    refine bind_isErr _ _ (fun _ => ?_)
    refine bind_isErr _ _ (fun _ => ?_)
    refine bind_isErr _ _ (fun _ => ?_)
    refine bind_isErr _ _ (fun _ => ?_)
    refine bind_isErr _ _ (fun _ => ?_)
    refine bind_isErr _ _ (fun _ => ?_)
    exact ⟨_, by rw [h, error_bind]⟩
  · refine bind_isErr _ _ (fun _ => ?_)
    refine bind_isErr _ _ (fun _ => ?_)
    refine bind_isErr _ _ (fun _ => ?_)
    refine bind_isErr _ _ (fun _ => ?_)
    refine bind_isErr _ _ (fun _ => ?_)
    refine bind_isErr _ _ (fun _ => ?_)
    refine bind_isErr _ _ (fun _ => ?_)
    refine bind_isErr _ _ (fun _ => ?_)
    refine bind_isErr _ _ (fun _ => ?_)
    refine bind_isErr _ _ (fun _ => ?_)
    refine bind_isErr _ _ (fun _ => ?_)
    refine bind_isErr _ _ (fun _ => ?_)
    refine bind_isErr _ _ (fun _ => ?_)
    refine bind_isErr _ _ (fun _ => ?_)
    refine bind_isErr _ _ (fun _ => ?_)
    refine bind_isErr _ _ (fun _ => ?_)
    refine bind_isErr _ _ (fun _ => ?_)
    refine bind_isErr _ _ (fun _ => ?_)
    refine bind_isErr _ _ (fun _ => ?_)
    refine bind_isErr _ _ (fun _ => ?_)
    exact ⟨_, by rw [h, error_bind]⟩
  · refine bind_isErr _ _ (fun _ => ?_)
    refine bind_isErr _ _ (fun _ => ?_)
    refine bind_isErr _ _ (fun _ => ?_)
    refine bind_isErr _ _ (fun _ => ?_)
    refine bind_isErr _ _ (fun _ => ?_)
    refine bind_isErr _ _ (fun _ => ?_)
    refine bind_isErr _ _ (fun _ => ?_)
    refine bind_isErr _ _ (fun _ => ?_)
    refine bind_isErr _ _ (fun _ => ?_)
    refine bind_isErr _ _ (fun _ => ?_)
    refine bind_isErr _ _ (fun _ => ?_)
    refine bind_isErr _ _ (fun _ => ?_)
    refine bind_isErr _ _ (fun _ => ?_)
    refine bind_isErr _ _ (fun _ => ?_)
    refine bind_isErr _ _ (fun _ => ?_)
    refine bind_isErr _ _ (fun _ => ?_)
    refine bind_isErr _ _ (fun _ => ?_)
    refine bind_isErr _ _ (fun _ => ?_)
    refine bind_isErr _ _ (fun _ => ?_)
    refine bind_isErr _ _ (fun _ => ?_)
    refine bind_isErr _ _ (fun _ => ?_)
    exact ⟨_, by rw [h, error_bind]⟩
  · refine bind_isErr _ _ (fun _ => ?_)
    refine bind_isErr _ _ (fun _ => ?_)
    refine bind_isErr _ _ (fun _ => ?_)
    refine bind_isErr _ _ (fun _ => ?_)
    refine bind_isErr _ _ (fun _ => ?_)
    refine bind_isErr _ _ (fun _ => ?_)
    refine bind_isErr _ _ (fun _ => ?_)
    refine bind_isErr _ _ (fun _ => ?_)
    refine bind_isErr _ _ (fun _ => ?_)
    refine bind_isErr _ _ (fun _ => ?_)
    refine bind_isErr _ _ (fun _ => ?_)
    refine bind_isErr _ _ (fun _ => ?_)
    refine bind_isErr _ _ (fun _ => ?_)
    refine bind_isErr _ _ (fun _ => ?_)
    refine bind_isErr _ _ (fun _ => ?_)
    refine bind_isErr _ _ (fun _ => ?_)
    refine bind_isErr _ _ (fun _ => ?_)
    refine bind_isErr _ _ (fun _ => ?_)
    refine bind_isErr _ _ (fun _ => ?_)
    refine bind_isErr _ _ (fun _ => ?_)
    refine bind_isErr _ _ (fun _ => ?_)
    refine bind_isErr _ _ (fun _ => ?_)
    exact ⟨_, by rw [h, error_bind]⟩

theorem readAux_tokErr_head (l : List String) (rest : List (List String))
    (hl : l.head? = some "p") (ident : Option String)
    (hshort : tokAt (l :: rest) 0 1 = Except.error PyError.indexErr ∨
      tokAt (l :: rest) 1 1 = Except.error PyError.indexErr ∨
      tokAt (l :: rest) 1 2 = Except.error PyError.indexErr ∨
      tokAt (l :: rest) 1 3 = Except.error PyError.indexErr ∨
      tokAt (l :: rest) 2 0 = Except.error PyError.indexErr ∨
      tokAt (l :: rest) 2 1 = Except.error PyError.indexErr ∨
      tokAt (l :: rest) 2 2 = Except.error PyError.indexErr ∨
      tokAt (l :: rest) 3 0 = Except.error PyError.indexErr ∨
      tokAt (l :: rest) 3 1 = Except.error PyError.indexErr ∨
      tokAt (l :: rest) 3 2 = Except.error PyError.indexErr ∨
      tokAt (l :: rest) 4 1 = Except.error PyError.indexErr ∨
      tokAt (l :: rest) 4 2 = Except.error PyError.indexErr ∨
      tokAt (l :: rest) 4 3 = Except.error PyError.indexErr) :
    ∃ e, readAux (l :: rest) ident = Except.error e := by
  rw [readAux_p l rest ident hl]
  obtain ⟨e, he⟩ := parseBlock_tokErr ident hshort
  exact ⟨e, by rw [he, error_bind]⟩

theorem pyFloatFails_none {s : String} (h : pyFloatFails s = true) : parseQ s = none := by
  simp only [pyFloatFails, Bool.and_eq_true, Option.isNone_iff_eq_none] at h
  exact h.1

theorem parseBlock_badNum (ps : String) (u0 : List String) (a b c : String)
    (u1 : List String) (d e2 f2 : String) (u2 : List String) (g h2 i2 : String)
    (u3 : List String) (x y z : String) (u4 : List String)
    (rest : List (List String)) (ident : Option String)
    (hbad : parseQ ps = none ∨ parseQ a = none ∨ parseQ b = none ∨ parseQ c = none ∨
      parseQ d = none ∨ parseQ e2 = none ∨ parseQ f2 = none ∨ parseQ g = none ∨
      parseQ h2 = none ∨ parseQ i2 = none ∨ parseQ x = none ∨ parseQ y = none ∨
      parseQ z = none) :
    ∃ e, parseBlock (("p" :: ps :: u0) :: ("r" :: a :: b :: c :: u1) ::
      (d :: e2 :: f2 :: u2) :: (g :: h2 :: i2 :: u3) ::
      ("x0" :: x :: y :: z :: u4) :: rest) ident = Except.error e := by
  simp only [parseBlock,
    show tokAt (("p" :: ps :: u0) :: ("r" :: a :: b :: c :: u1) ::
      (d :: e2 :: f2 :: u2) :: (g :: h2 :: i2 :: u3) ::
      ("x0" :: x :: y :: z :: u4) :: rest) 0 1 = Except.ok ps from rfl,
    show tokAt (("p" :: ps :: u0) :: ("r" :: a :: b :: c :: u1) ::
      (d :: e2 :: f2 :: u2) :: (g :: h2 :: i2 :: u3) ::
      ("x0" :: x :: y :: z :: u4) :: rest) 1 1 = Except.ok a from rfl,
    show tokAt (("p" :: ps :: u0) :: ("r" :: a :: b :: c :: u1) ::
      (d :: e2 :: f2 :: u2) :: (g :: h2 :: i2 :: u3) ::
      ("x0" :: x :: y :: z :: u4) :: rest) 1 2 = Except.ok b from rfl,
    show tokAt (("p" :: ps :: u0) :: ("r" :: a :: b :: c :: u1) ::
      (d :: e2 :: f2 :: u2) :: (g :: h2 :: i2 :: u3) ::
      ("x0" :: x :: y :: z :: u4) :: rest) 1 3 = Except.ok c from rfl,
    show tokAt (("p" :: ps :: u0) :: ("r" :: a :: b :: c :: u1) ::
      (d :: e2 :: f2 :: u2) :: (g :: h2 :: i2 :: u3) ::
      ("x0" :: x :: y :: z :: u4) :: rest) 2 0 = Except.ok d from rfl,
    show tokAt (("p" :: ps :: u0) :: ("r" :: a :: b :: c :: u1) ::
      (d :: e2 :: f2 :: u2) :: (g :: h2 :: i2 :: u3) ::
      ("x0" :: x :: y :: z :: u4) :: rest) 2 1 = Except.ok e2 from rfl,
    show tokAt (("p" :: ps :: u0) :: ("r" :: a :: b :: c :: u1) ::
      (d :: e2 :: f2 :: u2) :: (g :: h2 :: i2 :: u3) ::
      ("x0" :: x :: y :: z :: u4) :: rest) 2 2 = Except.ok f2 from rfl,
    show tokAt (("p" :: ps :: u0) :: ("r" :: a :: b :: c :: u1) ::
      (d :: e2 :: f2 :: u2) :: (g :: h2 :: i2 :: u3) ::
      ("x0" :: x :: y :: z :: u4) :: rest) 3 0 = Except.ok g from rfl,
    show tokAt (("p" :: ps :: u0) :: ("r" :: a :: b :: c :: u1) ::
      (d :: e2 :: f2 :: u2) :: (g :: h2 :: i2 :: u3) ::
      ("x0" :: x :: y :: z :: u4) :: rest) 3 1 = Except.ok h2 from rfl,
    show tokAt (("p" :: ps :: u0) :: ("r" :: a :: b :: c :: u1) ::
      (d :: e2 :: f2 :: u2) :: (g :: h2 :: i2 :: u3) ::
      ("x0" :: x :: y :: z :: u4) :: rest) 3 2 = Except.ok i2 from rfl,
    show tokAt (("p" :: ps :: u0) :: ("r" :: a :: b :: c :: u1) ::
      (d :: e2 :: f2 :: u2) :: (g :: h2 :: i2 :: u3) ::
      ("x0" :: x :: y :: z :: u4) :: rest) 4 1 = Except.ok x from rfl,
    show tokAt (("p" :: ps :: u0) :: ("r" :: a :: b :: c :: u1) ::
      (d :: e2 :: f2 :: u2) :: (g :: h2 :: i2 :: u3) ::
      ("x0" :: x :: y :: z :: u4) :: rest) 4 2 = Except.ok y from rfl,
    show tokAt (("p" :: ps :: u0) :: ("r" :: a :: b :: c :: u1) ::
      (d :: e2 :: f2 :: u2) :: (g :: h2 :: i2 :: u3) ::
      ("x0" :: x :: y :: z :: u4) :: rest) 4 3 = Except.ok z from rfl,
    ok_bind]
  rcases hbad with h | h | h | h | h | h | h | h | h | h | h | h | h
  · exact ⟨_, by rw [show toFloat ps = Except.error PyError.valueErr from by
      simp [toFloat, h], error_bind]⟩
  · refine bind_isErr _ _ (fun _ => ?_)
    exact ⟨_, by rw [show toFloat a = Except.error PyError.valueErr from by
      simp [toFloat, h], error_bind]⟩
  · refine bind_isErr _ _ (fun _ => ?_)
    refine bind_isErr _ _ (fun _ => ?_)
    exact ⟨_, by rw [show toFloat b = Except.error PyError.valueErr from by
      simp [toFloat, h], error_bind]⟩
  · refine bind_isErr _ _ (fun _ => ?_)
    refine bind_isErr _ _ (fun _ => ?_)
    refine bind_isErr _ _ (fun _ => ?_)
    exact ⟨_, by rw [show toFloat c = Except.error PyError.valueErr from by
      simp [toFloat, h], error_bind]⟩
  · refine bind_isErr _ _ (fun _ => ?_)
    refine bind_isErr _ _ (fun _ => ?_)
    refine bind_isErr _ _ (fun _ => ?_)
    refine bind_isErr _ _ (fun _ => ?_)
    exact ⟨_, by rw [show toFloat d = Except.error PyError.valueErr from by
      simp [toFloat, h], error_bind]⟩
  · refine bind_isErr _ _ (fun _ => ?_)
    refine bind_isErr _ _ (fun _ => ?_)
    refine bind_isErr _ _ (fun _ => ?_)
    refine bind_isErr _ _ (fun _ => ?_)
    refine bind_isErr _ _ (fun _ => ?_)
    exact ⟨_, by rw [show toFloat e2 = Except.error PyError.valueErr from by
      simp [toFloat, h], error_bind]⟩
  · refine bind_isErr _ _ (fun _ => ?_)
    refine bind_isErr _ _ (fun _ => ?_)
    refine bind_isErr _ _ (fun _ => ?_)
    refine bind_isErr _ _ (fun _ => ?_)
    refine bind_isErr _ _ (fun _ => ?_)
    refine bind_isErr _ _ (fun _ => ?_)
    exact ⟨_, by rw [show toFloat f2 = Except.error PyError.valueErr from by
      simp [toFloat, h], error_bind]⟩
  · refine bind_isErr _ _ (fun _ => ?_)
    refine bind_isErr _ _ (fun _ => ?_)
    refine bind_isErr _ _ (fun _ => ?_)
    refine bind_isErr _ _ (fun _ => ?_)
    refine bind_isErr _ _ (fun _ => ?_)
    refine bind_isErr _ _ (fun _ => ?_)
    refine bind_isErr _ _ (fun _ => ?_)
    exact ⟨_, by rw [show toFloat g = Except.error PyError.valueErr from by
      simp [toFloat, h], error_bind]⟩
  · refine bind_isErr _ _ (fun _ => ?_)
    refine bind_isErr _ _ (fun _ => ?_)
    refine bind_isErr _ _ (fun _ => ?_)
    refine bind_isErr _ _ (fun _ => ?_)
    refine bind_isErr _ _ (fun _ => ?_)
    refine bind_isErr _ _ (fun _ => ?_)
    refine bind_isErr _ _ (fun _ => ?_)
    refine bind_isErr _ _ (fun _ => ?_)
    exact ⟨_, by rw [show toFloat h2 = Except.error PyError.valueErr from by
      simp [toFloat, h], error_bind]⟩
  · refine bind_isErr _ _ (fun _ => ?_)
    refine bind_isErr _ _ (fun _ => ?_)
    refine bind_isErr _ _ (fun _ => ?_)
    refine bind_isErr _ _ (fun _ => ?_)
    refine bind_isErr _ _ (fun _ => ?_)
    refine bind_isErr _ _ (fun _ => ?_)
    refine bind_isErr _ _ (fun _ => ?_)
    refine bind_isErr _ _ (fun _ => ?_)
    refine bind_isErr _ _ (fun _ => ?_)
    exact ⟨_, by rw [show toFloat i2 = Except.error PyError.valueErr from by
      simp [toFloat, h], error_bind]⟩
  · refine bind_isErr _ _ (fun _ => ?_)
    refine bind_isErr _ _ (fun _ => ?_)
    refine bind_isErr _ _ (fun _ => ?_)
    refine bind_isErr _ _ (fun _ => ?_)
    refine bind_isErr _ _ (fun _ => ?_)
    refine bind_isErr _ _ (fun _ => ?_)
    refine bind_isErr _ _ (fun _ => ?_)
    refine bind_isErr _ _ (fun _ => ?_)
    refine bind_isErr _ _ (fun _ => ?_)
    refine bind_isErr _ _ (fun _ => ?_)
    exact ⟨_, by rw [show toFloat x = Except.error PyError.valueErr from by
      simp [toFloat, h], error_bind]⟩
  · refine bind_isErr _ _ (fun _ => ?_)
    refine bind_isErr _ _ (fun _ => ?_)
    refine bind_isErr _ _ (fun _ => ?_)
    refine bind_isErr _ _ (fun _ => ?_)
    refine bind_isErr _ _ (fun _ => ?_)
    refine bind_isErr _ _ (fun _ => ?_)
    refine bind_isErr _ _ (fun _ => ?_)
    refine bind_isErr _ _ (fun _ => ?_)
    refine bind_isErr _ _ (fun _ => ?_)
    refine bind_isErr _ _ (fun _ => ?_)
    refine bind_isErr _ _ (fun _ => ?_)
    exact ⟨_, by rw [show toFloat y = Except.error PyError.valueErr from by
      simp [toFloat, h], error_bind]⟩
  · refine bind_isErr _ _ (fun _ => ?_)
    refine bind_isErr _ _ (fun _ => ?_)
    refine bind_isErr _ _ (fun _ => ?_)
    refine bind_isErr _ _ (fun _ => ?_)
    refine bind_isErr _ _ (fun _ => ?_)
    refine bind_isErr _ _ (fun _ => ?_)
    refine bind_isErr _ _ (fun _ => ?_)
    refine bind_isErr _ _ (fun _ => ?_)
    refine bind_isErr _ _ (fun _ => ?_)
    refine bind_isErr _ _ (fun _ => ?_)
    refine bind_isErr _ _ (fun _ => ?_)
    refine bind_isErr _ _ (fun _ => ?_)
    exact ⟨_, by rw [show toFloat z = Except.error PyError.valueErr from by
      simp [toFloat, h], error_bind]⟩

theorem readAux_badNum_head (ps : String) (u0 : List String) (a b c : String)
    (u1 : List String) (d e2 f2 : String) (u2 : List String) (g h2 i2 : String)
    (u3 : List String) (x y z : String) (u4 : List String)
    (rest : List (List String)) (ident : Option String)
    (hbad : parseQ ps = none ∨ parseQ a = none ∨ parseQ b = none ∨ parseQ c = none ∨
      parseQ d = none ∨ parseQ e2 = none ∨ parseQ f2 = none ∨ parseQ g = none ∨
      parseQ h2 = none ∨ parseQ i2 = none ∨ parseQ x = none ∨ parseQ y = none ∨
      parseQ z = none) :
    ∃ e, readAux (("p" :: ps :: u0) :: ("r" :: a :: b :: c :: u1) ::
      (d :: e2 :: f2 :: u2) :: (g :: h2 :: i2 :: u3) ::
      ("x0" :: x :: y :: z :: u4) :: rest) ident = Except.error e := by
  rw [readAux_p _ _ _ (by rfl)]
  obtain ⟨e, he⟩ := parseBlock_badNum ps u0 a b c u1 d e2 f2 u2 g h2 i2 u3 x y z u4
    rest ident hbad
  exact ⟨e, by rw [he, error_bind]⟩

theorem parseQ_p_none : parseQ "p" = none := rfl

theorem parseQ_some_ne_p (s : String) (q : ℚ) (h : parseQ s = some q) : s ≠ "p" := by
  intro hsp
  rw [hsp, parseQ_p_none] at h
  exact absurd h (by simp)

/-! ### The splitext extension -/

theorem splitextExtChars_cases (l : List Char) :
    splitextExtChars l = [] ∨ ∃ d, splitextExtChars l = l.drop d := by
  rcases h1 : rfindIdx l '.' with _ | d
  · left
    simp only [splitextExtChars, h1]
  · rcases h2 : rfindIdx l '/' with _ | s
    · simp only [splitextExtChars, h1, h2]
      split
      · exact Or.inr ⟨d, rfl⟩
      · exact Or.inl rfl
    · simp only [splitextExtChars, h1, h2]
      split
      · exact Or.inl rfl
      · split
        · exact Or.inr ⟨d, rfl⟩
        · exact Or.inl rfl

theorem ext_stp_take_drop {l : List Char} (h : splitextExtChars l = ".stp".data) :
    l.take (l.length - 4) ++ ".stp".data = l := by
  rcases splitextExtChars_cases l with hc | ⟨d, hc⟩
  · rw [hc] at h
    exact absurd h.symm (by decide)
  · rw [hc] at h
    have hlen : l.length - d = 4 := by
      have := congrArg List.length h
      simpa using this
    have hdle : d ≤ l.length := by
      by_contra hgt
      rw [List.drop_eq_nil_of_le (by omega)] at h
      exact absurd h.symm (by decide)
    have hd : d = l.length - 4 := by omega
    rw [← hd, ← h]
    exact List.take_append_drop d l

/-! ### Shared consequences of a successful construction -/

theorem mk_ok_inv {path : String} {f : StablePoseFile}
    (h : mkStablePoseFile path = Except.ok f) :
    String.mk (splitextExtChars path.data) = ".stp" ∧ f = ⟨path⟩ := by
  by_cases hx : String.mk (splitextExtChars path.data) = ".stp"
  · refine ⟨hx, ?_⟩
    rw [mkStablePoseFile, if_neg (not_not.mpr hx)] at h
    exact (Except.ok.inj h).symm
  · rw [mkStablePoseFile, if_pos hx] at h
    cases h

/-! ### The written layout agrees with the layout the spec describes -/

theorem poseLines_eq_spec (s : StablePose) : poseLines s = specRecordLines s := by
  have hmk : ∀ l : List Char, (String.mk l).data = l := fun _ => rfl
  have hrow : ∀ a b c : ℚ, String.mk (' ' :: ' ' :: (fmt6Chars a ++ ' ' ::
      (fmt6Chars b ++ ' ' :: fmt6Chars c))) =
      "  " ++ fmt6 a ++ " " ++ fmt6 b ++ " " ++ fmt6 c := by
    intro a b c
    apply String.ext
    simp only [String.data_append, hmk, fmt6, List.append_assoc]
    rfl
  have hr : String.mk ('r' :: ' ' :: (fmt6Chars s.r.row0.a0 ++ ' ' ::
      (fmt6Chars s.r.row0.a1 ++ ' ' :: fmt6Chars s.r.row0.a2))) =
      "r " ++ fmt6 s.r.row0.a0 ++ " " ++ fmt6 s.r.row0.a1 ++ " " ++ fmt6 s.r.row0.a2 := by
    apply String.ext
    simp only [String.data_append, hmk, fmt6, List.append_assoc]
    rfl
  have hx : String.mk ('x' :: '0' :: ' ' :: (fmt6Chars s.x0.a0 ++ ' ' ::
      (fmt6Chars s.x0.a1 ++ ' ' :: fmt6Chars s.x0.a2))) =
      "x0 " ++ fmt6 s.x0.a0 ++ " " ++ fmt6 s.x0.a1 ++ " " ++ fmt6 s.x0.a2 := by
    apply String.ext
    simp only [String.data_append, hmk, fmt6, List.append_assoc]
    rfl
  simp only [poseLines, specRecordLines, hr, hrow, hx,
    show String.mk ('p' :: ' ' :: fmt6Chars s.p) = "p " ++ fmt6 s.p from rfl,
    show String.mk ('i' :: 'd' :: ' ' :: s.stp_id.data) = "id " ++ s.stp_id from rfl]

theorem bannerLines_eq_spec (n : Nat) (pstr : String) :
    bannerLines n pstr = specBannerLines n pstr := by
  have hmk : ∀ l : List Char, (String.mk l).data = l := fun _ => rfl
  have h4 : String.mk ("# Num Poses: ".data ++ natDigits n ++
      spacesChars (46 - (natDigits n).length) ++ " #".data) =
      "# Num Poses: " ++ String.mk (natDigits n) ++
        String.mk (spacesChars (46 - (natDigits n).length)) ++ " #" := by
    apply String.ext
    simp only [String.data_append, hmk, List.append_assoc]
  have h5 : String.mk ("# Min Probability: ".data ++ pstr.data ++
      spacesChars (40 - pstr.data.length) ++ " #".data) =
      "# Min Probability: " ++ pstr ++
        String.mk (spacesChars (40 - pstr.length)) ++ " #" := by
    apply String.ext
    simp only [String.data_append, hmk, List.append_assoc,
      show String.length pstr = pstr.data.length from rfl]
  simp only [bannerLines, specBannerLines, h4, h5]

/-! ### The claims -/

/-- C1: for every non-empty list of valid stable-pose records, write with
min_prob = 0 followed by read returns the same list in the same order, with
every floating-point field compared at the 6-decimal formatting precision
(roundPose). -/
theorem claim1_roundtrip (l : List StablePose) (_hne : l ≠ [])
    (hval : ∀ s ∈ l, ValidPose s) :
    read (write l 0) = Except.ok (l.map roundPose) := by
  have hfil : l.filter (fun s => (0 : ℚ) ≤ s.p) = l :=
    List.filter_eq_self.mpr (fun s hs => by simp [(hval s hs).2.1])
  rw [read_write l 0 hval, hfil]

theorem claim1_roundtrip_witness :
    read (write [⟨1, ⟨⟨1, 0, 0⟩, ⟨0, 1, 0⟩, ⟨0, 0, 1⟩⟩, ⟨0, 0, 0⟩, "7"⟩] 0) =
      Except.ok ([(⟨1, ⟨⟨1, 0, 0⟩, ⟨0, 1, 0⟩, ⟨0, 0, 1⟩⟩, ⟨0, 0, 0⟩, "7"⟩ :
        StablePose)].map roundPose) :=
  claim1_roundtrip _ (by decide) (by decide)

/-- C2: evidence for the identifier fallback defect.  The source's except
branch assigns the unused variable stp_id and then appends with the loop
variable identifier, so a block whose id line is absent reuses the stale
identifier of the previous record (here "7" for the second record) instead
of the documented fallback "0"; and when no identifier was ever parsed the
read aborts with a NameError instead of returning the record. -/
theorem claim2_stale_identifier_bug :
    read ["p 1", "r 1 0 0", "0 1 0", "0 0 1", "x0 0 0 0", "id 7",
          "p 2", "r 1 0 0", "0 1 0", "0 0 1", "x0 0 0 0"] =
      Except.ok [⟨1, ⟨⟨1, 0, 0⟩, ⟨0, 1, 0⟩, ⟨0, 0, 1⟩⟩, ⟨0, 0, 0⟩, "7"⟩,
                 ⟨2, ⟨⟨1, 0, 0⟩, ⟨0, 1, 0⟩, ⟨0, 0, 1⟩⟩, ⟨0, 0, 0⟩, "7"⟩] ∧
    read ["p 1", "r 1 0 0", "0 1 0", "0 0 1", "x0 0 0 0"] =
      Except.error PyError.nameErr :=
  ⟨by decide, by decide⟩

/-- C3: write(records, min_prob = X) emits exactly the records with
probability >= X, in input order, as read confirms: reading the written file
returns precisely the filtered subsequence (floats at formatting
precision). -/
theorem claim3_threshold (l : List StablePose) (X : ℚ) (hval : ∀ s ∈ l, ValidPose s) :
    read (write l X) = Except.ok ((l.filter (fun s => X ≤ s.p)).map roundPose) :=
  read_write l X hval

theorem claim3_threshold_witness :
    read (write [⟨1, ⟨⟨1, 0, 0⟩, ⟨0, 1, 0⟩, ⟨0, 0, 1⟩⟩, ⟨0, 0, 0⟩, "a"⟩,
                 ⟨0, ⟨⟨1, 0, 0⟩, ⟨0, 1, 0⟩, ⟨0, 0, 1⟩⟩, ⟨0, 0, 0⟩, "b"⟩] (1 / 2)) =
      Except.ok ((([⟨1, ⟨⟨1, 0, 0⟩, ⟨0, 1, 0⟩, ⟨0, 0, 1⟩⟩, ⟨0, 0, 0⟩, "a"⟩,
                    ⟨0, ⟨⟨1, 0, 0⟩, ⟨0, 1, 0⟩, ⟨0, 0, 1⟩⟩, ⟨0, 0, 0⟩, "b"⟩] :
          List StablePose).filter (fun s => (1 / 2 : ℚ) ≤ s.p)).map roundPose) :=
  claim3_threshold _ _ (by decide)

/-- C4: the constructor succeeds exactly when the os.path.splitext extension
of the path is the literal ".stp" (case-sensitive), and a successful
construction only stores the path: the path then really ends in the literal
suffix ".stp", and no filesystem access is modelled or needed. -/
theorem claim4_extension_check (path : String) :
    ((∃ f, mkStablePoseFile path = Except.ok f) ↔
      String.mk (splitextExtChars path.data) = ".stp") ∧
    (∀ f, mkStablePoseFile path = Except.ok f →
      List.IsSuffix ".stp".data path.data ∧ f.filepath_ = path) := by
  constructor
  · constructor
    · rintro ⟨f, hf⟩
      exact (mk_ok_inv hf).1
    · intro hx
      exact ⟨⟨path⟩, by rw [mkStablePoseFile, if_neg (not_not.mpr hx)]⟩
  · intro f hf
    obtain ⟨hx, rfl⟩ := mk_ok_inv hf
    exact ⟨⟨path.data.take (path.data.length - 4),
      ext_stp_take_drop (congrArg String.data hx)⟩, rfl⟩

theorem claim4_extension_check_witness :
    (∃ f, mkStablePoseFile "a.stp" = Except.ok f) ∧
    (List.IsSuffix ".stp".data "dir/b.stp".data ∧
      (⟨"dir/b.stp"⟩ : StablePoseFile).filepath_ = "dir/b.stp") :=
  ⟨(claim4_extension_check "a.stp").1.mpr (by decide),
   (claim4_extension_check "dir/b.stp").2 ⟨"dir/b.stp"⟩ (by decide)⟩

/-- C5: a record block at a p line takes rotation row 0 from tokens 1..3 of
line i+1 (skipping the leading r tag), rows 1 and 2 from tokens 0..2 of lines
i+2 and i+3 (no tag offset), and the translation from tokens 1..3 of line
i+4, whatever extra tokens follow on any of those lines. -/
theorem claim5_offsets (pre : List (List String)) (hpre : ∀ t ∈ pre, t.head? ≠ some "p")
    (ps : String) (u0 : List String) (a b c : String) (u1 : List String)
    (d e2 f2 : String) (u2 : List String) (g h2 i2 : String) (u3 : List String)
    (x y z : String) (u4 : List String) (w : String) (u5 : List String)
    (qp qa qb qc qd qe qf qg qh qi qx qy qz : ℚ) (ident : Option String)
    (hp : parseQ ps = some qp) (ha : parseQ a = some qa) (hb : parseQ b = some qb)
    (hc : parseQ c = some qc) (hd : parseQ d = some qd) (he : parseQ e2 = some qe)
    (hf : parseQ f2 = some qf) (hg : parseQ g = some qg) (hh : parseQ h2 = some qh)
    (hi : parseQ i2 = some qi) (hx : parseQ x = some qx) (hy : parseQ y = some qy)
    (hz : parseQ z = some qz) :
    readAux (pre ++ (("p" :: ps :: u0) :: ("r" :: a :: b :: c :: u1) ::
        (d :: e2 :: f2 :: u2) :: (g :: h2 :: i2 :: u3) ::
        ("x0" :: x :: y :: z :: u4) :: ("id" :: w :: u5) :: [])) ident =
      Except.ok [⟨qp, ⟨⟨qa, qb, qc⟩, ⟨qd, qe, qf⟩, ⟨qg, qh, qi⟩⟩, ⟨qx, qy, qz⟩, w⟩] := by
  rw [readAux_skip_pre pre hpre]
  rw [readAux_p ("p" :: ps :: u0) _ _ rfl]
  have hblock : parseBlock (("p" :: ps :: u0) :: ("r" :: a :: b :: c :: u1) ::
        (d :: e2 :: f2 :: u2) :: (g :: h2 :: i2 :: u3) ::
        ("x0" :: x :: y :: z :: u4) :: ("id" :: w :: u5) :: []) ident =
      Except.ok ⟨qp, ⟨⟨qa, qb, qc⟩, ⟨qd, qe, qf⟩, ⟨qg, qh, qi⟩⟩, ⟨qx, qy, qz⟩, w⟩ := by
    simp only [parseBlock,
      show tokAt (("p" :: ps :: u0) :: ("r" :: a :: b :: c :: u1) ::
        (d :: e2 :: f2 :: u2) :: (g :: h2 :: i2 :: u3) ::
        ("x0" :: x :: y :: z :: u4) :: ("id" :: w :: u5) :: []) 0 1 = Except.ok ps from rfl,
      show tokAt (("p" :: ps :: u0) :: ("r" :: a :: b :: c :: u1) ::
        (d :: e2 :: f2 :: u2) :: (g :: h2 :: i2 :: u3) ::
        ("x0" :: x :: y :: z :: u4) :: ("id" :: w :: u5) :: []) 1 1 = Except.ok a from rfl,
      show tokAt (("p" :: ps :: u0) :: ("r" :: a :: b :: c :: u1) ::
        (d :: e2 :: f2 :: u2) :: (g :: h2 :: i2 :: u3) ::
        ("x0" :: x :: y :: z :: u4) :: ("id" :: w :: u5) :: []) 1 2 = Except.ok b from rfl,
      show tokAt (("p" :: ps :: u0) :: ("r" :: a :: b :: c :: u1) ::
        (d :: e2 :: f2 :: u2) :: (g :: h2 :: i2 :: u3) ::
        ("x0" :: x :: y :: z :: u4) :: ("id" :: w :: u5) :: []) 1 3 = Except.ok c from rfl,
      show tokAt (("p" :: ps :: u0) :: ("r" :: a :: b :: c :: u1) ::
        (d :: e2 :: f2 :: u2) :: (g :: h2 :: i2 :: u3) ::
        ("x0" :: x :: y :: z :: u4) :: ("id" :: w :: u5) :: []) 2 0 = Except.ok d from rfl,
      show tokAt (("p" :: ps :: u0) :: ("r" :: a :: b :: c :: u1) ::
        (d :: e2 :: f2 :: u2) :: (g :: h2 :: i2 :: u3) ::
        ("x0" :: x :: y :: z :: u4) :: ("id" :: w :: u5) :: []) 2 1 = Except.ok e2 from rfl,
      show tokAt (("p" :: ps :: u0) :: ("r" :: a :: b :: c :: u1) ::
        (d :: e2 :: f2 :: u2) :: (g :: h2 :: i2 :: u3) ::
        ("x0" :: x :: y :: z :: u4) :: ("id" :: w :: u5) :: []) 2 2 = Except.ok f2 from rfl,
      show tokAt (("p" :: ps :: u0) :: ("r" :: a :: b :: c :: u1) ::
        (d :: e2 :: f2 :: u2) :: (g :: h2 :: i2 :: u3) ::
        ("x0" :: x :: y :: z :: u4) :: ("id" :: w :: u5) :: []) 3 0 = Except.ok g from rfl,
      show tokAt (("p" :: ps :: u0) :: ("r" :: a :: b :: c :: u1) ::
        (d :: e2 :: f2 :: u2) :: (g :: h2 :: i2 :: u3) ::
        ("x0" :: x :: y :: z :: u4) :: ("id" :: w :: u5) :: []) 3 1 = Except.ok h2 from rfl,
      show tokAt (("p" :: ps :: u0) :: ("r" :: a :: b :: c :: u1) ::
        (d :: e2 :: f2 :: u2) :: (g :: h2 :: i2 :: u3) ::
        ("x0" :: x :: y :: z :: u4) :: ("id" :: w :: u5) :: []) 3 2 = Except.ok i2 from rfl,
      show tokAt (("p" :: ps :: u0) :: ("r" :: a :: b :: c :: u1) ::
        (d :: e2 :: f2 :: u2) :: (g :: h2 :: i2 :: u3) ::
        ("x0" :: x :: y :: z :: u4) :: ("id" :: w :: u5) :: []) 4 1 = Except.ok x from rfl,
      show tokAt (("p" :: ps :: u0) :: ("r" :: a :: b :: c :: u1) ::
        (d :: e2 :: f2 :: u2) :: (g :: h2 :: i2 :: u3) ::
        ("x0" :: x :: y :: z :: u4) :: ("id" :: w :: u5) :: []) 4 2 = Except.ok y from rfl,
      show tokAt (("p" :: ps :: u0) :: ("r" :: a :: b :: c :: u1) ::
        (d :: e2 :: f2 :: u2) :: (g :: h2 :: i2 :: u3) ::
        ("x0" :: x :: y :: z :: u4) :: ("id" :: w :: u5) :: []) 4 3 = Except.ok z from rfl,
      show nextIdent (("p" :: ps :: u0) :: ("r" :: a :: b :: c :: u1) ::
        (d :: e2 :: f2 :: u2) :: (g :: h2 :: i2 :: u3) ::
        ("x0" :: x :: y :: z :: u4) :: ("id" :: w :: u5) :: []) ident = some w from rfl,
      ok_bind, toFloat, hp, ha, hb, hc, hd, he, hf, hg, hh, hi, hx, hy, hz]
  rw [hblock, ok_bind]
  rw [show nextIdent (("p" :: ps :: u0) :: ("r" :: a :: b :: c :: u1) ::
        (d :: e2 :: f2 :: u2) :: (g :: h2 :: i2 :: u3) ::
        ("x0" :: x :: y :: z :: u4) :: ("id" :: w :: u5) :: []) ident = some w from rfl]
  rw [readAux_skip _ _ _ (head_cons_ne "r" _ (by decide)),
    readAux_skip _ _ _ (head_cons_ne _ _ (parseQ_some_ne_p d qd hd)),
    readAux_skip _ _ _ (head_cons_ne _ _ (parseQ_some_ne_p g qg hg)),
    readAux_skip _ _ _ (head_cons_ne "x0" _ (by decide)),
    readAux_skip _ _ _ (head_cons_ne "id" _ (by decide)),
    readAux_nil, ok_bind]

theorem claim5_offsets_witness :
    readAux ([["#", "banner"]] ++ ("p" :: "1" :: []) ::
        ("r" :: "2" :: "3" :: "4" :: ["77"]) :: ("5" :: "6" :: "7" :: ["88"]) ::
        ("8" :: "9" :: "10" :: []) :: ("x0" :: "11" :: "12" :: "13" :: ["99"]) ::
        ("id" :: "name" :: ["junk"]) :: []) none =
      Except.ok [⟨1, ⟨⟨2, 3, 4⟩, ⟨5, 6, 7⟩, ⟨8, 9, 10⟩⟩, ⟨11, 12, 13⟩, "name"⟩] :=
  claim5_offsets [["#", "banner"]] (by decide) "1" [] "2" "3" "4" ["77"]
    "5" "6" "7" ["88"] "8" "9" "10" [] "11" "12" "13" ["99"] "name" ["junk"]
    1 2 3 4 5 6 7 8 9 10 11 12 13 none
    (by decide) (by decide) (by decide) (by decide) (by decide) (by decide) (by decide)
    (by decide) (by decide) (by decide) (by decide) (by decide) (by decide)

/-- C6: the order of records in the file is the order read returns (the
probabilities of the result, in order, are exactly the parsed p tokens of the
file's p lines, in file order), and the p lines write emits are exactly the
threshold-filtered input records in input order: neither direction sorts or
reorders. -/
theorem claim6_no_reorder :
    (∀ (lines : List String) (res : List StablePose), read lines = Except.ok res →
      res.map (fun s => some s.p) =
        ((lines.map pySplit).filter isPLine).map (fun t => (t.get? 1).bind parseQ)) ∧
    (∀ (l : List StablePose) (X : ℚ), (∀ s ∈ l, ValidPose s) →
      ((write l X).map pySplit).filter isPLine =
        (l.filter (fun s => X ≤ s.p)).map (fun s => ["p", fmt6 s.p])) :=
  ⟨fun lines res h => readAux_order (lines.map pySplit) none res h,
   fun l X h => write_pLines l X h⟩

theorem claim6_no_reorder_witness :
    ([⟨1, ⟨⟨1, 0, 0⟩, ⟨0, 1, 0⟩, ⟨0, 0, 1⟩⟩, ⟨0, 0, 0⟩, "7"⟩] :
        List StablePose).map (fun s => some s.p) =
      ((["p 1", "r 1 0 0", "0 1 0", "0 0 1", "x0 0 0 0", "id 7"].map pySplit).filter
        isPLine).map (fun t => (t.get? 1).bind parseQ) ∧
    ((write [⟨1, ⟨⟨1, 0, 0⟩, ⟨0, 1, 0⟩, ⟨0, 0, 1⟩⟩, ⟨0, 0, 0⟩, "a"⟩] 0).map
        pySplit).filter isPLine =
      (([⟨1, ⟨⟨1, 0, 0⟩, ⟨0, 1, 0⟩, ⟨0, 0, 1⟩⟩, ⟨0, 0, 0⟩, "a"⟩] :
        List StablePose).filter (fun s => (0 : ℚ) ≤ s.p)).map (fun s => ["p", fmt6 s.p]) :=
  ⟨claim6_no_reorder.1 _ _ (by decide), claim6_no_reorder.2 _ _ (by decide)⟩

/-- C7: a record block whose required fixed-position tokens in lines i..i+4
are absent (the following lines missing entirely, as when the p line ends the
file, or present but too short) aborts read with an error wherever the block
sits in the file; and so does a block whose required tokens in lines i..i+4
are present but non-numeric, where non-numeric means Python float() itself
rejects the token (pyFloatFails: neither a finite decimal literal, with
optional sign, fraction, exponent and underscore grouping, nor an inf or nan
spelling).  The error carries no records, so no partial result reaches the
caller. -/
theorem claim7_malformed :
    (∀ (pre rest : List (List String)) (l : List String) (ident : Option String),
      l.head? = some "p" →
      (tokAt (l :: rest) 0 1 = Except.error PyError.indexErr ∨
       tokAt (l :: rest) 1 1 = Except.error PyError.indexErr ∨
       tokAt (l :: rest) 1 2 = Except.error PyError.indexErr ∨
       tokAt (l :: rest) 1 3 = Except.error PyError.indexErr ∨
       tokAt (l :: rest) 2 0 = Except.error PyError.indexErr ∨
       tokAt (l :: rest) 2 1 = Except.error PyError.indexErr ∨
       tokAt (l :: rest) 2 2 = Except.error PyError.indexErr ∨
       tokAt (l :: rest) 3 0 = Except.error PyError.indexErr ∨
       tokAt (l :: rest) 3 1 = Except.error PyError.indexErr ∨
       tokAt (l :: rest) 3 2 = Except.error PyError.indexErr ∨
       tokAt (l :: rest) 4 1 = Except.error PyError.indexErr ∨
       tokAt (l :: rest) 4 2 = Except.error PyError.indexErr ∨
       tokAt (l :: rest) 4 3 = Except.error PyError.indexErr) →
      ∃ e, readAux (pre ++ l :: rest) ident = Except.error e) ∧
    (∀ (pre : List (List String)) (ps : String) (u0 : List String) (a b c : String)
      (u1 : List String) (d e2 f2 : String) (u2 : List String) (g h2 i2 : String)
      (u3 : List String) (x y z : String) (u4 : List String)
      (rest : List (List String)) (ident : Option String),
      (pyFloatFails ps = true ∨
        pyFloatFails a = true ∨
        pyFloatFails b = true ∨
        pyFloatFails c = true ∨
        pyFloatFails d = true ∨
        pyFloatFails e2 = true ∨
        pyFloatFails f2 = true ∨
        pyFloatFails g = true ∨
        pyFloatFails h2 = true ∨
        pyFloatFails i2 = true ∨
        pyFloatFails x = true ∨
        pyFloatFails y = true ∨
        pyFloatFails z = true) →
      ∃ e, readAux (pre ++ ("p" :: ps :: u0) :: ("r" :: a :: b :: c :: u1) ::
        (d :: e2 :: f2 :: u2) :: (g :: h2 :: i2 :: u3) ::
        ("x0" :: x :: y :: z :: u4) :: rest) ident = Except.error e) := by
  constructor
  · intro pre rest l ident hl hshort
    exact readAux_err_extend (l :: rest)
      (fun id2 => readAux_tokErr_head l rest hl id2 hshort) pre ident
  · intro pre ps u0 a b c u1 d e2 f2 u2 g h2 i2 u3 x y z u4 rest ident hbad
    have hbad2 : parseQ ps = none ∨
        parseQ a = none ∨
        parseQ b = none ∨
        parseQ c = none ∨
        parseQ d = none ∨
        parseQ e2 = none ∨
        parseQ f2 = none ∨
        parseQ g = none ∨
        parseQ h2 = none ∨
        parseQ i2 = none ∨
        parseQ x = none ∨
        parseQ y = none ∨
        parseQ z = none := by
      rcases hbad with h | h | h | h | h | h | h | h | h | h | h | h | h
      · exact Or.inl (pyFloatFails_none h)
      · exact Or.inr (Or.inl (pyFloatFails_none h))
      · exact Or.inr (Or.inr (Or.inl (pyFloatFails_none h)))
      · exact Or.inr (Or.inr (Or.inr (Or.inl (pyFloatFails_none h))))
      · exact Or.inr (Or.inr (Or.inr (Or.inr (Or.inl (pyFloatFails_none h)))))
      · exact Or.inr (Or.inr (Or.inr (Or.inr (Or.inr (Or.inl (pyFloatFails_none h))))))
      · exact Or.inr (Or.inr (Or.inr (Or.inr (Or.inr (Or.inr (Or.inl (pyFloatFails_none h)))))))
      · exact Or.inr (Or.inr (Or.inr (Or.inr (Or.inr (Or.inr (Or.inr (Or.inl (pyFloatFails_none h))))))))
      · exact Or.inr (Or.inr (Or.inr (Or.inr (Or.inr (Or.inr (Or.inr (Or.inr (Or.inl (pyFloatFails_none h)))))))))
      · exact Or.inr (Or.inr (Or.inr (Or.inr (Or.inr (Or.inr (Or.inr (Or.inr (Or.inr (Or.inl (pyFloatFails_none h))))))))))
      · exact Or.inr (Or.inr (Or.inr (Or.inr (Or.inr (Or.inr (Or.inr (Or.inr (Or.inr (Or.inr (Or.inl (pyFloatFails_none h)))))))))))
      · exact Or.inr (Or.inr (Or.inr (Or.inr (Or.inr (Or.inr (Or.inr (Or.inr (Or.inr (Or.inr (Or.inr (Or.inl (pyFloatFails_none h))))))))))))
      · exact Or.inr (Or.inr (Or.inr (Or.inr (Or.inr (Or.inr (Or.inr (Or.inr (Or.inr (Or.inr (Or.inr (Or.inr (pyFloatFails_none h))))))))))))
    exact readAux_err_extend _
      (fun id2 => readAux_badNum_head ps u0 a b c u1 d e2 f2 u2 g h2 i2 u3
        x y z u4 rest id2 hbad2) pre ident

theorem claim7_malformed_witness :
    (∃ e, readAux ([] ++ ["p", "1"] :: [["r", "0"]]) none = Except.error e) ∧
    (∃ e, readAux ([] ++ ("p" :: "1" :: []) :: ("r" :: "oops" :: "0" :: "0" :: []) ::
      ("0" :: "1" :: "0" :: []) :: ("0" :: "0" :: "1" :: []) ::
      ("x0" :: "0" :: "0" :: "0" :: []) :: []) none = Except.error e) :=
  ⟨claim7_malformed.1 [] [["r", "0"]] ["p", "1"] none (by decide)
     (Or.inr (Or.inr (Or.inr (Or.inl (by decide))))),
   claim7_malformed.2 [] "1" [] "oops" "0" "0" [] "0" "1" "0" [] "0" "0" "1" []
     "0" "0" "0" [] [] none (Or.inr (Or.inl (by decide)))⟩

/-- C8: write produces exactly the fixed text layout the spec describes: the
banner with its two padded lines (46 minus the digit count of N, 40 minus the
length of the min_prob string), one blank line, six lines per retained record
in the tagged shapes, and two trailing blank lines; and every %f field
carries exactly 6 digits after the decimal point. -/
theorem claim8_layout (l : List StablePose) (X : ℚ) :
    write l X = specLayout l X ∧
    (∀ q : ℚ, ∃ pre ds, fmt6Chars q = pre ++ '.' :: ds ∧ ds.length = 6 ∧
      ∀ c ∈ ds, Char.isDigit c = true) := by
  constructor
  · simp only [write, specLayout]
    rw [bannerLines_eq_spec, show poseLines = specRecordLines from funext poseLines_eq_spec]
  · intro q
    refine ⟨(if round (q * 1000000) < 0 then ['-'] else []) ++
        natDigits ((round (q * 1000000)).natAbs / 1000000),
      List.replicate (6 - (natDigits ((round (q * 1000000)).natAbs % 1000000)).length) '0' ++
        natDigits ((round (q * 1000000)).natAbs % 1000000), rfl, ?_, ?_⟩
    · have hlt : (round (q * 1000000)).natAbs % 1000000 < 10 ^ 6 := by
        have := Nat.mod_lt (round (q * 1000000)).natAbs (show 0 < 1000000 by norm_num)
        omega
      have hlen := natDigits_len _ 6 hlt (by norm_num)
      simp only [List.length_append, List.length_replicate]
      omega
    · intro c hcm
      rcases List.mem_append.mp hcm with hcm | hcm
      · rcases List.mem_replicate.mp hcm with ⟨-, rfl⟩
        decide
      · obtain ⟨dd, hdd, rfl⟩ := natDigits_mem _ c hcm
        exact (digitChar_spec dd hdd).2.2.1

theorem claim8_layout_witness :
    write [⟨1, ⟨⟨1, 0, 0⟩, ⟨0, 1, 0⟩, ⟨0, 0, 1⟩⟩, ⟨0, 0, 0⟩, "w"⟩] 0 =
      specLayout [⟨1, ⟨⟨1, 0, 0⟩, ⟨0, 1, 0⟩, ⟨0, 0, 1⟩⟩, ⟨0, 0, 0⟩, "w"⟩] 0 :=
  (claim8_layout [⟨1, ⟨⟨1, 0, 0⟩, ⟨0, 1, 0⟩, ⟨0, 0, 1⟩⟩, ⟨0, 0, 0⟩, "w"⟩] 0).1

/-- C9: read returns one record per p-tagged line (so its length is the
number of such lines), an empty file reads as the empty list, write of the
empty list still emits the full banner block, and reading it back gives the
empty list. -/
theorem claim9_lengths :
    (∀ (lines : List String) (res : List StablePose), read lines = Except.ok res →
      res.length = ((lines.map pySplit).filter isPLine).length) ∧
    read [] = Except.ok [] ∧
    write [] 0 =
      [ "#############################################################",
        "# STP file generated by UC Berkeley Automation Sciences Lab #",
        "#                                                           #",
        "# Num Poses: 0                                              #",
        "# Min Probability: 0                                        #",
        "#                                                           #",
        "#############################################################",
        "", "", "" ] ∧
    read (write [] 0) = Except.ok [] := by
  refine ⟨?_, rfl, by decide, by decide⟩
  intro lines res h
  have ho := readAux_order (lines.map pySplit) none res h
  have hlen := congrArg List.length ho
  simpa using hlen

theorem claim9_lengths_witness :
    ([⟨1, ⟨⟨1, 0, 0⟩, ⟨0, 1, 0⟩, ⟨0, 0, 1⟩⟩, ⟨0, 0, 0⟩, "7"⟩] : List StablePose).length =
      ((["p 1", "r 1 0 0", "0 1 0", "0 0 1", "x0 0 0 0", "id 7"].map pySplit).filter
        isPLine).length :=
  claim9_lengths.1 _ _ (by decide)

/-- C10: for every path the constructor accepts, stripping the last four
characters and appending ".stp" reproduces the stored path itself, so write
always writes to the codec's own validated path. -/
theorem claim10_target (path : String) (f : StablePoseFile)
    (h : mkStablePoseFile path = Except.ok f) :
    writeTarget f = f.filepath_ ∧ f.filepath_ = path := by
  obtain ⟨hx, rfl⟩ := mk_ok_inv h
  refine ⟨?_, rfl⟩
  apply String.ext
  exact ext_stp_take_drop (congrArg String.data hx)

theorem claim10_target_witness :
    writeTarget ⟨"a.stp"⟩ = (⟨"a.stp"⟩ : StablePoseFile).filepath_ ∧
      (⟨"a.stp"⟩ : StablePoseFile).filepath_ = "a.stp" :=
  claim10_target "a.stp" ⟨"a.stp"⟩ (by decide)

end Stp
